import Mathlib

/-!
# dailyReportBE: authorization-aware query and mutation engine

A shallow embedding of the report and task controllers
(`src/server/controllers/reportController.js`, `taskController.js`), the
request validation chains of `src/server/routes/*.js` and the schema rules of
`src/server/models/*.js`.

Conventions of the embedding.

* Identifiers (`ObjectId`s rendered by `toString()`) and roles are strings.
* Instants are integer milliseconds.
* A query-string parameter is `Option String`; `none` is `undefined`.
* The document store is a pair of lists; `_id` is unique in a real store.
* `populate` only resolves references for display and referenced users are
  taken to exist, so `doc.author._id.toString()` is the stored author id.
-/

set_option autoImplicit false

namespace DailyReport

/-! ## Identity and query parameters -/

/-- The verified caller `req.user`. -/
structure Identity where
  id : String
  role : String
deriving DecidableEq, Repr

/-- JavaScript truthiness of a query parameter: `undefined` and the empty
string are falsy, every other string is truthy.  The result is the value the
guarded statement uses. -/
def present (v : Option String) : Option String :=
  v.filter (fun s => s != "")

/-- The fields destructured from `req.query` by `getReports`. -/
structure ReportQuery where
  page : Option String := none
  limit : Option String := none
  status : Option String := none
  category : Option String := none
  author : Option String := none
  startDate : Option String := none
  endDate : Option String := none
  search : Option String := none
  sortBy : Option String := none
  sortOrder : Option String := none
deriving DecidableEq, Repr

/-- The fields destructured from `req.query` by `getTasks`. -/
structure TaskQuery where
  page : Option String := none
  limit : Option String := none
  status : Option String := none
  priority : Option String := none
  category : Option String := none
  assignedTo : Option String := none
  assignedBy : Option String := none
  search : Option String := none
  sortBy : Option String := none
  sortOrder : Option String := none
deriving DecidableEq, Repr

/-! ## Records -/

/-- An embedded comment sub-document. -/
structure Comment where
  user : String
  content : String
  createdAt : Int
deriving DecidableEq, Repr

/-- A document of the `Report` collection (`models/Report.js`), with the
`timestamps: true` fields.  `attachments` is never touched by a controller
and is left out. -/
structure Report where
  id : String
  title : String
  content : String
  date : Int
  author : String
  task : Option String
  status : String
  category : String
  tags : List String
  comments : List Comment
  approvedBy : Option String
  approvedAt : Option Int
  isPublic : Bool
  createdAt : Int
  updatedAt : Int
deriving DecidableEq, Repr

/-- A document of the `Task` collection (`models/Task.js`), with the
`timestamps: true` fields.  `attachments` is never touched by a controller
and is left out; hour counts are integers. -/
structure Task where
  id : String
  title : String
  description : String
  assignedTo : String
  assignedBy : String
  status : String
  priority : String
  category : String
  dueDate : Int
  startDate : Int
  completedDate : Option Int
  tags : List String
  comments : List Comment
  isActive : Bool
  estimatedHours : Option Int
  actualHours : Option Int
  createdAt : Int
  updatedAt : Int
deriving DecidableEq, Repr

/-! ## Filters handed to the store -/

/-- The operators of the store that a filter refers to but the repository does
not define: the case-insensitive regular-expression test
`{ $regex: pat, $options: 'i' }` and the date constructor `new Date(s)`. -/
structure Interp where
  regexI : String → String → Bool
  newDate : String → Int

/-- One element of the `$or` array of a report filter. -/
inductive ReportClause where
  | authorEq (id : String)
  | isPublicEq (b : Bool)
  | titleRegex (pat : String)
  | contentRegex (pat : String)
  | tagsInRegex (pat : String)
deriving DecidableEq, Repr

/-- The `filter.date` sub-object: `$gte` and `$lte` hold the strings that
were passed to `new Date`. -/
structure DateRange where
  gte : Option String := none
  lte : Option String := none
deriving DecidableEq, Repr

/-- The filter object built by the report list handlers.  A JavaScript object
has one slot per key, so a later assignment to a key replaces the earlier
one; `or` is the `$or` key. -/
structure ReportFilter where
  or : Option (List ReportClause) := none
  status : Option String := none
  category : Option String := none
  author : Option String := none
  date : Option DateRange := none
deriving DecidableEq, Repr

/-- One element of the `$or` array of a task filter. -/
inductive TaskClause where
  | titleRegex (pat : String)
  | descriptionRegex (pat : String)
  | tagsInRegex (pat : String)
deriving DecidableEq, Repr

/-- The filter object built by `getTasks`. -/
structure TaskFilter where
  isActive : Option Bool := none
  assignedTo : Option String := none
  status : Option String := none
  priority : Option String := none
  category : Option String := none
  assignedBy : Option String := none
  or : Option (List TaskClause) := none
deriving DecidableEq, Repr

/-- `getReports`, lines 24-53 of `reportController.js`: the filter object. -/
def getReportsFilter (user : Identity) (q : ReportQuery) : ReportFilter :=
  let filter : ReportFilter := {}
  -- If user is not admin, only show their reports or public reports
  let filter :=
    if user.role ≠ "admin" then
      { filter with or := some [.authorEq user.id, .isPublicEq true] }
    else filter
  let filter :=
    match present q.status with
    | some v => { filter with status := some v }
    | none => filter
  let filter :=
    match present q.category with
    | some v => { filter with category := some v }
    | none => filter
  let filter :=
    match present q.author with
    | some v => if user.role = "admin" then { filter with author := some v } else filter
    | none => filter
  -- Date range filter
  let filter :=
    if (present q.startDate).isSome || (present q.endDate).isSome then
      { filter with date := some { gte := present q.startDate, lte := present q.endDate } }
    else filter
  -- Search filter
  match present q.search with
  | some s =>
      { filter with or := some [.titleRegex s, .contentRegex s, .tagsInRegex s] }
  | none => filter

/-- `getTasks`, lines 23-44 of `taskController.js`: the filter object. -/
def getTasksFilter (user : Identity) (q : TaskQuery) : TaskFilter :=
  let filter : TaskFilter := { isActive := some true }
  -- If user is not admin, only show tasks assigned to them
  let filter :=
    if user.role ≠ "admin" then { filter with assignedTo := some user.id } else filter
  let filter :=
    match present q.status with
    | some v => { filter with status := some v }
    | none => filter
  let filter :=
    match present q.priority with
    | some v => { filter with priority := some v }
    | none => filter
  let filter :=
    match present q.category with
    | some v => { filter with category := some v }
    | none => filter
  let filter :=
    match present q.assignedTo with
    | some v => if user.role = "admin" then { filter with assignedTo := some v } else filter
    | none => filter
  let filter :=
    match present q.assignedBy with
    | some v => if user.role = "admin" then { filter with assignedBy := some v } else filter
    | none => filter
  -- Search filter
  match present q.search with
  | some s =>
      { filter with or := some [.titleRegex s, .descriptionRegex s, .tagsInRegex s] }
  | none => filter

/-! ## Meaning of a filter -/

/-- An absent key of a filter constrains nothing; a present one must hold. -/
def optAll {α : Type} (o : Option α) (p : α → Bool) : Bool :=
  match o with
  | none => true
  | some a => p a

/-- Truth of one `$or` element of a report filter on a report. -/
def ReportClause.holds (I : Interp) (r : Report) : ReportClause → Bool
  | .authorEq a => r.author == a
  | .isPublicEq b => r.isPublic == b
  | .titleRegex p => I.regexI p r.title
  | .contentRegex p => I.regexI p r.content
  | .tagsInRegex p => r.tags.any (I.regexI p)

/-- The store's reading of a report filter: the keys are conjoined, `$or`
holds when one of its elements does. -/
def ReportFilter.matches (I : Interp) (f : ReportFilter) (r : Report) : Bool :=
  optAll f.or (fun cs => cs.any (ReportClause.holds I r)) &&
  optAll f.status (fun v => r.status == v) &&
  optAll f.category (fun v => r.category == v) &&
  optAll f.author (fun v => r.author == v) &&
  optAll f.date (fun d =>
    optAll d.gte (fun s => decide (I.newDate s ≤ r.date)) &&
    optAll d.lte (fun s => decide (r.date ≤ I.newDate s)))

/-- Truth of one `$or` element of a task filter on a task. -/
def TaskClause.holds (I : Interp) (t : Task) : TaskClause → Bool
  | .titleRegex p => I.regexI p t.title
  | .descriptionRegex p => I.regexI p t.description
  | .tagsInRegex p => t.tags.any (I.regexI p)

/-- The store's reading of a task filter. -/
def TaskFilter.matches (I : Interp) (f : TaskFilter) (t : Task) : Bool :=
  optAll f.isActive (fun v => t.isActive == v) &&
  optAll f.assignedTo (fun v => t.assignedTo == v) &&
  optAll f.status (fun v => t.status == v) &&
  optAll f.priority (fun v => t.priority == v) &&
  optAll f.category (fun v => t.category == v) &&
  optAll f.assignedBy (fun v => t.assignedBy == v) &&
  optAll f.or (fun cs => cs.any (TaskClause.holds I t))

/-- Case-insensitive literal containment on character lists. -/
def containsCI (pat text : String) : Bool :=
  (text.data.map Char.toLower).tails.any
    (fun suffix => (pat.data.map Char.toLower).isPrefixOf suffix)

/-- A sample interpretation for evaluating filters on concrete data: a
pattern without metacharacters is a case-insensitive substring test, and
instants are written as decimal milliseconds. -/
def sampleInterp : Interp where
  regexI := containsCI
  newDate := fun s => s.toInt?.getD 0

/-! ## Request bodies -/

/-- A JSON value of a request body, as far as the schemas can take one.
`date text ms` is the string `text` when it is an ISO 8601 date, together
with the instant it denotes; `str` is any other string.  A comment object is
given with its three fields.  Other nested objects, and with them update
operators such as `$set` as keys of a body, are not represented. -/
inductive Val where
  | null
  | bool (b : Bool)
  | num (n : Int)
  | str (s : String)
  | date (text : String) (ms : Int)
  | strs (xs : List String)
  | comments (cs : List Comment)
deriving DecidableEq, Repr

/-- A parsed `req.body`: the first binding of a key is its value. -/
abbrev Payload := List (String × Val)

/-- Property read `body[k]`; `none` is `undefined`. -/
def Payload.get (body : Payload) (k : String) : Option Val :=
  body.lookup k

/-- The statement `delete body[k]`. -/
def Payload.delete (body : Payload) (k : String) : Payload :=
  body.filter (fun e => e.1 != k)

/-- The object `{ ...body, k: v }`. -/
def Payload.set (body : Payload) (k : String) (v : Val) : Payload :=
  (k, v) :: body.delete k

/-- JavaScript truthiness of a body value. -/
def Val.truthy : Val → Bool
  | .null => false
  | .bool b => b
  | .num n => n != 0
  | .str s => s != ""
  | .date text _ => text != ""
  | .strs _ => true
  | .comments _ => true

/-- `String.prototype.trim` on the character list. -/
def jsTrim (s : String) : String :=
  ⟨((s.data.dropWhile Char.isWhitespace).reverse.dropWhile Char.isWhitespace).reverse⟩

/-! ## Validation chains of the routes (express-validator)

A standard validator is applied to the string form of the value, and to each
element when the value is an array. -/

/-- The strings a standard validator tests for a value. -/
def Val.texts : Val → List String
  | .null => [""]
  | .bool b => [if b then "true" else "false"]
  | .num n => [toString n]
  | .str s => [s]
  | .date text _ => [text]
  | .strs xs => xs
  | .comments cs => cs.map (fun _ => "[object Object]")

/-- The chain `.trim().isLength({ min: lo, max: hi })`. -/
def isLength (lo hi : Nat) (v : Val) : Bool :=
  v.texts.all (fun s => decide (lo ≤ (jsTrim s).length) && decide ((jsTrim s).length ≤ hi))

/-- The chain `.trim().notEmpty()`. -/
def notEmpty (v : Val) : Bool :=
  v.texts.all (fun s => jsTrim s != "")

/-- The validator `.isIn(options)`. -/
def isIn (options : List String) (v : Val) : Bool :=
  v.texts.all (fun s => options.contains s)

/-- The validator `.isISO8601()`: of the strings only those tagged `date` are
ISO 8601 dates. -/
def isISO8601 : Val → Bool
  | .date _ _ => true
  | .strs xs => xs.isEmpty
  | .comments cs => cs.isEmpty
  | _ => false

/-- The validator `.isArray()`. -/
def isArray : Val → Bool
  | .strs _ => true
  | .comments _ => true
  | _ => false

/-- The validator `.isFloat({ min: 0 })` on the integers of the model. -/
def isFloatMin0 : Val → Bool
  | .num n => decide (0 ≤ n)
  | .strs xs => xs.isEmpty
  | .comments cs => cs.isEmpty
  | _ => false

/-- The validator `.isBoolean()`. -/
def isBoolean (v : Val) : Bool :=
  v.texts.all (fun s => ["true", "false", "1", "0"].contains s)

/-- A hexadecimal digit. -/
def isHexDigit (c : Char) : Bool :=
  c.isDigit || (decide ('a' ≤ c) && decide (c ≤ 'f')) || (decide ('A' ≤ c) && decide (c ≤ 'F'))

/-- The validator `.isMongoId()`: 24 hexadecimal digits. -/
def isMongoId (v : Val) : Bool :=
  v.texts.all (fun s => decide (s.length = 24) && s.data.all isHexDigit)

/-- A rule with `.optional()`: skipped when the field is `undefined`. -/
def optionalRule (body : Payload) (k : String) (rule : Val → Bool) : Bool :=
  match body.get k with
  | none => true
  | some v => rule v

/-- A rule without `.optional()`: `undefined` is tested as the empty string. -/
def requiredRule (body : Payload) (k : String) (rule : Val → Bool) : Bool :=
  match body.get k with
  | none => rule (.str "")
  | some v => rule v

/-- The wildcard rule `body('tags.*').optional().trim().isLength(...)`: it
selects the elements of `tags` when that is an array. -/
def tagsEachRule (body : Payload) (lo hi : Nat) : Bool :=
  match body.get "tags" with
  | some (.strs xs) => isLength lo hi (.strs xs)
  | some (.comments cs) => isLength lo hi (.comments cs)
  | _ => true

/-- `updateTaskValidation` of `routes/tasks.js`: `true` when
`validationResult(req)` is empty. -/
def updateTaskValidation (body : Payload) : Bool :=
  optionalRule body "title" (isLength 5 200) &&
  optionalRule body "description" (isLength 10 1000) &&
  optionalRule body "priority" (isIn ["low", "medium", "high", "urgent"]) &&
  optionalRule body "category"
    (isIn ["development", "design", "testing", "documentation", "meeting", "other"]) &&
  optionalRule body "status" (isIn ["pending", "in_progress", "completed", "cancelled"]) &&
  optionalRule body "dueDate" isISO8601 &&
  optionalRule body "startDate" isISO8601 &&
  optionalRule body "tags" isArray &&
  tagsEachRule body 1 30 &&
  optionalRule body "estimatedHours" isFloatMin0 &&
  optionalRule body "actualHours" isFloatMin0

/-- `createReportValidation` of `routes/reports.js`. -/
def createReportValidation (body : Payload) : Bool :=
  requiredRule body "title" notEmpty &&
  requiredRule body "title" (isLength 1 100) &&
  requiredRule body "content" notEmpty &&
  requiredRule body "content" (isLength 1 2000) &&
  optionalRule body "category" (isIn ["daily", "weekly", "monthly", "project", "other"]) &&
  optionalRule body "status" (isIn ["draft", "submitted", "approved", "rejected"]) &&
  optionalRule body "tags" isArray &&
  tagsEachRule body 1 20 &&
  optionalRule body "isPublic" isBoolean &&
  optionalRule body "task" isMongoId

/-- `updateReportValidation` of `routes/reports.js`. -/
def updateReportValidation (body : Payload) : Bool :=
  optionalRule body "title" (isLength 1 100) &&
  optionalRule body "content" (isLength 1 2000) &&
  optionalRule body "category" (isIn ["daily", "weekly", "monthly", "project", "other"]) &&
  optionalRule body "status" (isIn ["draft", "submitted", "approved", "rejected"]) &&
  optionalRule body "tags" isArray &&
  tagsEachRule body 1 20 &&
  optionalRule body "isPublic" isBoolean &&
  optionalRule body "task" isMongoId

/-! ## Schema paths (`models/Task.js`, `models/Report.js`)

Each function casts a body value to the type of a schema path and runs the
validators declared on it; `none` means that the store rejects the write (a
`CastError` or `ValidationError` is thrown).  A path that the records keep
total rejects `null`. -/

/-- Cast to the `String` type: scalars are converted, arrays are not. -/
def castString : Val → Option String
  | .bool b => some (if b then "true" else "false")
  | .num n => some (toString n)
  | .str s => some s
  | .date text _ => some text
  | _ => none

/-- A required `String` path with `trim: true` and `maxlength`. -/
def textPath (maxlength : Nat) (v : Val) : Option String :=
  match castString v with
  | some s => if jsTrim s != "" && decide ((jsTrim s).length ≤ maxlength) then some (jsTrim s) else none
  | none => none

/-- A `String` path with an `enum`. -/
def enumPath (options : List String) (v : Val) : Option String :=
  match castString v with
  | some s => if options.contains s then some s else none
  | none => none

/-- A required reference path: the id is taken as a well-formed `ObjectId`. -/
def refPath : Val → Option String
  | .str s => some s
  | _ => none

/-- A reference path that may be unset. -/
def optRefPath : Val → Option (Option String)
  | .null => some none
  | .str s => some (some s)
  | _ => none

/-- A required `Date` path. -/
def datePath : Val → Option Int
  | .date _ ms => some ms
  | .num n => some n
  | _ => none

/-- A `Date` path that may be unset. -/
def optDatePath : Val → Option (Option Int)
  | .null => some none
  | .date _ ms => some (some ms)
  | .num n => some (some n)
  | _ => none

/-- A `Boolean` path: the values Mongoose converts to `true` and to `false`. -/
def boolPath : Val → Option Bool
  | .bool b => some b
  | .num n => if n = 1 then some true else if n = 0 then some false else none
  | .str s =>
      if ["true", "1", "yes"].contains s then some true
      else if ["false", "0", "no"].contains s then some false
      else none
  | _ => none

/-- A `Number` path with `min: 0` that may be unset. -/
def hoursPath : Val → Option (Option Int)
  | .null => some none
  | .num n => if 0 ≤ n then some (some n) else none
  | _ => none

/-- The `tags` path: an array of trimmed strings with `maxlength`; a single
string is wrapped into an array. -/
def tagsPath (maxlength : Nat) : Val → Option (List String)
  | .strs xs =>
      if xs.all (fun x => decide ((jsTrim x).length ≤ maxlength)) then some (xs.map jsTrim) else none
  | .comments [] => some []
  | .str x => if (jsTrim x).length ≤ maxlength then some [jsTrim x] else none
  | _ => none

/-- The `comments` path: each element needs a `user` and a `content` of at
most 500 characters. -/
def commentsPath : Val → Option (List Comment)
  | .comments cs =>
      if cs.all (fun c => c.content != "" && decide (c.content.length ≤ 500)) then some cs else none
  | .strs [] => some []
  | _ => none

/-- The `content` of a pushed comment: `required`, `maxlength` 500, no trim. -/
def commentContentPath : Option Val → Option String
  | none => none
  | some v =>
      match castString v with
      | some s => if s != "" && decide (s.length ≤ 500) then some s else none
      | none => none

/-- One schema path of a write: when the document has key `k`, its value is
cast and stored, and the write is rejected when the cast or a validator
fails; a key that is `undefined` leaves the path as it is. -/
def setPath {α D : Type} (doc : Payload) (k : String) (cast : Val → Option α)
    (store : D → α → D) (d : D) : Option D :=
  match doc.get k with
  | none => some d
  | some v => (cast v).map (store d)

/-- The statuses of a task. -/
def taskStatuses : List String := ["pending", "in_progress", "completed", "cancelled"]

/-- The priorities of a task. -/
def taskPriorities : List String := ["low", "medium", "high", "urgent"]

/-- The categories of a task. -/
def taskCategories : List String :=
  ["development", "design", "testing", "documentation", "meeting", "other"]

/-- The statuses of a report. -/
def reportStatuses : List String := ["draft", "submitted", "approved", "rejected"]

/-- The categories of a report. -/
def reportCategories : List String := ["daily", "weekly", "monthly", "project", "other"]

/-- The paths of the task schema that a write can set.  Keys of the document
that are no schema path are dropped (strict mode); `_id` and the timestamps
are not set from a document. -/
def Task.paths (doc : Payload) : List (Task → Option Task) :=
  [ setPath doc "title" (textPath 200) (fun t v => { t with title := v }),
    setPath doc "description" (textPath 1000) (fun t v => { t with description := v }),
    setPath doc "assignedTo" refPath (fun t v => { t with assignedTo := v }),
    setPath doc "assignedBy" refPath (fun t v => { t with assignedBy := v }),
    setPath doc "status" (enumPath taskStatuses) (fun t v => { t with status := v }),
    setPath doc "priority" (enumPath taskPriorities) (fun t v => { t with priority := v }),
    setPath doc "category" (enumPath taskCategories) (fun t v => { t with category := v }),
    setPath doc "dueDate" datePath (fun t v => { t with dueDate := v }),
    setPath doc "startDate" datePath (fun t v => { t with startDate := v }),
    setPath doc "completedDate" optDatePath (fun t v => { t with completedDate := v }),
    setPath doc "tags" (tagsPath 30) (fun t v => { t with tags := v }),
    setPath doc "comments" commentsPath (fun t v => { t with comments := v }),
    setPath doc "isActive" boolPath (fun t v => { t with isActive := v }),
    setPath doc "estimatedHours" hoursPath (fun t v => { t with estimatedHours := v }),
    setPath doc "actualHours" hoursPath (fun t v => { t with actualHours := v }) ]

/-- Setting every schema path of a task from a document. -/
def Task.setPaths (doc : Payload) (t : Task) : Option Task :=
  (Task.paths doc).foldlM (fun (d : Task) (f : Task → Option Task) => f d) t

/-- The write of `findByIdAndUpdate(id, update, { new: true, runValidators:
true })` on a task: every top-level key of `update` that is a schema path is
set to its cast value and `updatedAt` is stamped.  No `save` middleware runs
on this path. -/
def Task.applyUpdate (now : Int) (update : Payload) (t : Task) : Option Task :=
  (Task.setPaths update t).map (fun t' => { t' with updatedAt := now })

/-- The paths of the report schema that a write can set. -/
def Report.paths (doc : Payload) : List (Report → Option Report) :=
  [ setPath doc "title" (textPath 100) (fun r v => { r with title := v }),
    setPath doc "content" (textPath 2000) (fun r v => { r with content := v }),
    setPath doc "date" datePath (fun r v => { r with date := v }),
    setPath doc "author" refPath (fun r v => { r with author := v }),
    setPath doc "task" optRefPath (fun r v => { r with task := v }),
    setPath doc "status" (enumPath reportStatuses) (fun r v => { r with status := v }),
    setPath doc "category" (enumPath reportCategories) (fun r v => { r with category := v }),
    setPath doc "tags" (tagsPath 20) (fun r v => { r with tags := v }),
    setPath doc "comments" commentsPath (fun r v => { r with comments := v }),
    setPath doc "approvedBy" optRefPath (fun r v => { r with approvedBy := v }),
    setPath doc "approvedAt" optDatePath (fun r v => { r with approvedAt := v }),
    setPath doc "isPublic" boolPath (fun r v => { r with isPublic := v }) ]

/-- Setting every schema path of a report from a document. -/
def Report.setPaths (doc : Payload) (r : Report) : Option Report :=
  (Report.paths doc).foldlM (fun (d : Report) (f : Report → Option Report) => f d) r

/-- The write of `findByIdAndUpdate` on a report. -/
def Report.applyUpdate (now : Int) (update : Payload) (r : Report) : Option Report :=
  (Report.setPaths update r).map (fun r' => { r' with updatedAt := now })

/-! ## The document store -/

/-- The two collections the controllers work on. -/
structure Store where
  reports : List Report
  tasks : List Task
deriving DecidableEq, Repr

/-- The call `Task.findById(id)`; `none` is `null`. -/
def Task.findById (s : Store) (id : String) : Option Task :=
  s.tasks.find? (fun t => t.id == id)

/-- The call `Report.findById(id)`. -/
def Report.findById (s : Store) (id : String) : Option Report :=
  s.reports.find? (fun r => r.id == id)

/-- Writing back the document with the id of `t`. -/
def Store.putTask (s : Store) (t : Task) : Store :=
  { s with tasks := s.tasks.map (fun x => if x.id == t.id then t else x) }

/-- Writing back the document with the id of `r`. -/
def Store.putReport (s : Store) (r : Report) : Store :=
  { s with reports := s.reports.map (fun x => if x.id == r.id then r else x) }

/-- The call `Report.findByIdAndDelete(id)`. -/
def Report.findByIdAndDelete (s : Store) (id : String) : Store :=
  { s with reports := s.reports.filter (fun r => r.id != id) }

/-- The call `Task.findByIdAndUpdate(id, update, { new: true, runValidators:
true })`: `none` when the write is rejected, else the updated document (or
`null`) and the new store. -/
def Task.findByIdAndUpdate (now : Int) (s : Store) (id : String) (update : Payload) :
    Option (Option Task × Store) :=
  match Task.findById s id with
  | none => some (none, s)
  | some t =>
      match Task.applyUpdate now update t with
      | none => none
      | some t' => some (some t', s.putTask t')

/-- The call `Report.findByIdAndUpdate(id, update, { new: true,
runValidators: true })`. -/
def Report.findByIdAndUpdate (now : Int) (s : Store) (id : String) (update : Payload) :
    Option (Option Report × Store) :=
  match Report.findById s id with
  | none => some (none, s)
  | some r =>
      match Report.applyUpdate now update r with
      | none => none
      | some r' => some (some r', s.putReport r')

/-- The `pre('save')` middleware of `models/Task.js`. -/
def Task.preSave (now : Int) (statusModified : Bool) (t : Task) : Task :=
  if statusModified && t.status == "completed" && t.completedDate.isNone then
    { t with completedDate := some now }
  else t

/-- The `pre('save')` middleware of `models/Report.js`. -/
def Report.preSave (now : Int) (statusModified : Bool) (r : Report) : Report :=
  if statusModified && r.status == "approved" && r.approvedAt.isNone then
    { r with approvedAt := some now }
  else r

/-- The call `task.save()` on a loaded document `orig` that the handler has
edited to `t`: nothing is written when no path changed, else the middleware
runs and `updatedAt` is stamped. -/
def Task.save (now : Int) (s : Store) (orig t : Task) : Task × Store :=
  if t = orig then (t, s)
  else
    let t' := { Task.preSave now (t.status != orig.status) t with updatedAt := now }
    (t', s.putTask t')

/-- The call `report.save()` on a loaded document `orig` edited to `r`. -/
def Report.save (now : Int) (s : Store) (orig r : Report) : Report × Store :=
  if r = orig then (r, s)
  else
    let r' := { Report.preSave now (r.status != orig.status) r with updatedAt := now }
    (r', s.putReport r')

/-- A new report before any key of the creation document is set: the schema
defaults (`date: Date.now`, `status: 'draft'`, `category: 'daily'`,
`isPublic: false`), empty arrays, and the two timestamps.  `newId` is the
fresh `_id`. -/
def Report.blank (now : Int) (newId : String) : Report where
  id := newId
  title := ""
  content := ""
  date := now
  author := ""
  task := none
  status := "draft"
  category := "daily"
  tags := []
  comments := []
  approvedBy := none
  approvedAt := none
  isPublic := false
  createdAt := now
  updatedAt := now

/-- The document that `Report.create(data)` builds: the `required` paths
`title`, `content` and `author` must be given, every given path is cast and
validated, and the `save` middleware runs on the new document. -/
def Report.fromPayload (now : Int) (newId : String) (data : Payload) : Option Report :=
  if (data.get "title").isNone || (data.get "content").isNone || (data.get "author").isNone then
    none
  else
    (Report.setPaths data (Report.blank now newId)).map
      (Report.preSave now (data.get "status").isSome)

/-- The call `Report.create(data)`: `none` when validation rejects the
document. -/
def Report.create (now : Int) (newId : String) (s : Store) (data : Payload) :
    Option (Report × Store) :=
  match Report.fromPayload now newId data with
  | none => none
  | some r => some (r, { s with reports := s.reports ++ [r] })

/-! ## Responses -/

/-- The `data` member of a response body. -/
inductive Data where
  | none
  | task (t : Task)
  | report (r : Report)
  | comment (c : Comment)
deriving DecidableEq, Repr

/-- The HTTP status with the `success` and `message` members of the JSON body
and its `data`. -/
structure Response where
  status : Nat
  success : Bool
  message : String
  data : Data := Data.none
deriving DecidableEq, Repr

/-- The body `res.status(code).json({ success: false, message })`. -/
def failure (code : Nat) (message : String) : Response :=
  { status := code, success := false, message := message }

/-! ## Task controller (`controllers/taskController.js`)

A handler maps the store and the request to the response and the store
afterwards; a thrown error is the `catch` branch with status 500. -/

namespace TaskController

/-- The handler `getTask`. -/
def getTask (s : Store) (user : Identity) (id : String) : Response :=
  match Task.findById s id with
  | none => failure 404 "Task not found"
  | some task =>
      -- Check if user can access this task
      if user.role ≠ "admin" ∧ task.assignedTo ≠ user.id then
        failure 403 "Not authorized to access this task"
      else
        { status := 200, success := true, message := "", data := .task task }

/-- Lines 195-201 of `updateTask`: the copy of `req.body` that is written. -/
def updateData (user : Identity) (body : Payload) : Payload :=
  -- Don't allow non-admin to change certain fields
  if user.role ≠ "admin" then
    ((body.delete "assignedTo").delete "assignedBy").delete "priority"
  else body

/-- The handler `updateTask`, behind `updateTaskValidation`. -/
def updateTask (now : Int) (s : Store) (user : Identity) (id : String) (body : Payload) :
    Response × Store :=
  if ¬ updateTaskValidation body then (failure 400 "Validation failed", s)
  else
    match Task.findById s id with
    | none => (failure 404 "Task not found", s)
    | some task =>
        -- Check if user can update this task
        if user.role ≠ "admin" ∧ task.assignedTo ≠ user.id then
          (failure 403 "Not authorized to update this task", s)
        else
          match Task.findByIdAndUpdate now s id (updateData user body) with
          | none => (failure 500 "Server error updating task", s)
          | some (doc, s') =>
              ({ status := 200, success := true, message := "Task updated successfully",
                 data := match doc with
                   | some t => .task t
                   | none => .none }, s')

/-- The handler `addComment` of the task controller.  It does not consult
`validationResult`; the pushed sub-document is validated by `save`. -/
def addComment (now : Int) (s : Store) (user : Identity) (id : String) (body : Payload) :
    Response × Store :=
  match Task.findById s id with
  | none => (failure 404 "Task not found", s)
  | some task =>
      -- Check if user can comment on this task
      if user.role ≠ "admin" ∧ task.assignedTo ≠ user.id then
        (failure 403 "Not authorized to comment on this task", s)
      else
        match commentContentPath (body.get "content") with
        | none => (failure 500 "Server error adding comment", s)
        | some content =>
            let comment : Comment := { user := user.id, content := content, createdAt := now }
            let saved := Task.save now s task { task with comments := task.comments ++ [comment] }
            ({ status := 200, success := true, message := "Comment added successfully",
               data := match saved.1.comments.getLast? with
                 | some c => .comment c
                 | none => .none }, saved.2)

end TaskController

/-! ## Report controller (`controllers/reportController.js`) -/

namespace ReportController

/-- The handler `getReport`. -/
def getReport (s : Store) (user : Identity) (id : String) : Response :=
  match Report.findById s id with
  | none => failure 404 "Report not found"
  | some report =>
      -- Check if user can access this report
      if user.role ≠ "admin" ∧ report.author ≠ user.id ∧ ¬ report.isPublic then
        failure 403 "Not authorized to access this report"
      else
        { status := 200, success := true, message := "", data := .report report }

/-- The handler `createReport`, behind `createReportValidation`.  `newId` is
the `_id` the store gives the new document. -/
def createReport (now : Int) (newId : String) (s : Store) (user : Identity) (body : Payload) :
    Response × Store :=
  if ¬ createReportValidation body then (failure 400 "Validation failed", s)
  else
    let reportData := body.set "author" (.str user.id)
    -- If task is provided, validate it exists and is assigned to user
    let early : Option Response :=
      match body.get "task" with
      | none => none
      | some (.str taskId) =>
          if taskId = "" then none
          else
            match Task.findById s taskId with
            | none => some (failure 400 "Task not found")
            | some task =>
                -- Check if task is assigned to the current user
                if user.role ≠ "admin" ∧ task.assignedTo ≠ user.id then
                  some (failure 403 "Task is not assigned to you")
                else none
      | some v =>
          -- a truthy value that is no id string makes `findById` throw
          if v.truthy then some (failure 500 "Server error creating report") else none
    match early with
    | some response => (response, s)
    | none =>
        match Report.create now newId s reportData with
        | none => (failure 500 "Server error creating report", s)
        | some (report, s') =>
            ({ status := 201, success := true, message := "Report created successfully",
               data := .report report }, s')

/-- Lines 225-231 of `updateReport`: the copy of `req.body` that is written. -/
def updateData (user : Identity) (body : Payload) : Payload :=
  -- Don't allow updating certain fields if not admin
  if user.role ≠ "admin" then
    ((body.delete "status").delete "approvedBy").delete "approvedAt"
  else body

/-- The handler `updateReport`, behind `updateReportValidation`. -/
def updateReport (now : Int) (s : Store) (user : Identity) (id : String) (body : Payload) :
    Response × Store :=
  if ¬ updateReportValidation body then (failure 400 "Validation failed", s)
  else
    match Report.findById s id with
    | none => (failure 404 "Report not found", s)
    | some report =>
        -- Check if user can update this report
        if user.role ≠ "admin" ∧ report.author ≠ user.id then
          (failure 403 "Not authorized to update this report", s)
        else
          match Report.findByIdAndUpdate now s id (updateData user body) with
          | none => (failure 500 "Server error updating report", s)
          | some (doc, s') =>
              ({ status := 200, success := true, message := "Report updated successfully",
                 data := match doc with
                   | some r => .report r
                   | none => .none }, s')

/-- The handler `deleteReport`. -/
def deleteReport (s : Store) (user : Identity) (id : String) : Response × Store :=
  match Report.findById s id with
  | none => (failure 404 "Report not found", s)
  | some report =>
      -- Check if user can delete this report
      if user.role ≠ "admin" ∧ report.author ≠ user.id then
        (failure 403 "Not authorized to delete this report", s)
      else
        ({ status := 200, success := true, message := "Report deleted successfully" },
          Report.findByIdAndDelete s id)

/-- The handler `addComment` of the report controller. -/
def addComment (now : Int) (s : Store) (user : Identity) (id : String) (body : Payload) :
    Response × Store :=
  match Report.findById s id with
  | none => (failure 404 "Report not found", s)
  | some report =>
      -- Check if user can comment on this report
      if user.role ≠ "admin" ∧ report.author ≠ user.id ∧ ¬ report.isPublic then
        (failure 403 "Not authorized to comment on this report", s)
      else
        match commentContentPath (body.get "content") with
        | none => (failure 500 "Server error adding comment", s)
        | some content =>
            let comment : Comment := { user := user.id, content := content, createdAt := now }
            let saved :=
              Report.save now s report { report with comments := report.comments ++ [comment] }
            ({ status := 200, success := true, message := "Comment added successfully",
               data := match saved.1.comments.getLast? with
                 | some c => .comment c
                 | none => .none }, saved.2)

end ReportController

/-! ## Sample data -/

/-- A caller with role `user`. -/
def alice : Identity := { id := "u1", role := "user" }

/-- Another caller with role `user`. -/
def bob : Identity := { id := "u2", role := "user" }

/-- A caller with role `admin`. -/
def root : Identity := { id := "a1", role := "admin" }

/-- A private report written by `bob`. -/
def bobsReport : Report where
  id := "r1"
  title := "Salary review"
  content := "Notes for the manager"
  date := 1000
  author := "u2"
  task := none
  status := "draft"
  category := "daily"
  tags := ["hr"]
  comments := []
  approvedBy := none
  approvedAt := none
  isPublic := false
  createdAt := 1000
  updatedAt := 1000

/-- A public report written by `bob`. -/
def bobsPublicReport : Report := { bobsReport with id := "r2", isPublic := true }

/-- An active task that `root` assigned to `alice`. -/
def alicesTask : Task where
  id := "64b000000000000000000001"
  title := "Write the weekly summary"
  description := "Summarise the work of the week"
  assignedTo := "u1"
  assignedBy := "a1"
  status := "pending"
  priority := "medium"
  category := "documentation"
  dueDate := 5000
  startDate := 1000
  completedDate := none
  tags := []
  comments := []
  isActive := true
  estimatedHours := none
  actualHours := none
  createdAt := 1000
  updatedAt := 1000

/-- A store holding the sample reports and the sample task. -/
def sampleStore : Store := { reports := [bobsReport, bobsPublicReport], tasks := [alicesTask] }

/-- A task query with every parameter supplied. -/
def fullTaskQuery : TaskQuery where
  page := some "2"
  limit := some "5"
  status := some "pending"
  priority := some "high"
  category := some "other"
  assignedTo := some "u2"
  assignedBy := some "a1"
  search := some "summary"
  sortBy := some "dueDate"
  sortOrder := some "asc"

/-! ## Task controller: soft deletion -/

namespace TaskController

/-- The handler `deleteTask`.  It reads no field of `req.user`; the route
places the middleware `authorize('admin')` in front of it. -/
def deleteTask (now : Int) (s : Store) (id : String) : Response × Store :=
  match Task.findById s id with
  | none => (failure 404 "Task not found", s)
  | some task =>
      -- Soft delete - set isActive to false
      let saved := Task.save now s task { task with isActive := false }
      ({ status := 200, success := true, message := "Task deleted successfully" }, saved.2)

end TaskController

/-! ## List requests: validation chain, sort and paging -/

/-- The number written by a list of decimal digits. -/
def digitsVal (ds : List Char) : Nat :=
  ds.foldl (fun n c => 10 * n + (c.toNat - '0'.toNat)) 0

/-- The value of one hexadecimal digit. -/
def hexDigitVal (c : Char) : Nat :=
  if c.isDigit then c.toNat - '0'.toNat
  else if decide ('a' ≤ c) && decide (c ≤ 'f') then c.toNat - 'a'.toNat + 10
  else c.toNat - 'A'.toNat + 10

/-- The number written by a list of hexadecimal digits. -/
def hexVal (ds : List Char) : Nat :=
  ds.foldl (fun n c => 16 * n + hexDigitVal c) 0

/-- An unsigned digit prefix as `parseInt` reads it: after `0x` or `0X` the
longest run of hexadecimal digits, else the longest run of decimal digits;
`none` is `NaN`. -/
def parseMagnitude : List Char → Option Nat
  | '0' :: 'x' :: cs =>
      if cs.takeWhile isHexDigit = [] then none else some (hexVal (cs.takeWhile isHexDigit))
  | '0' :: 'X' :: cs =>
      if cs.takeWhile isHexDigit = [] then none else some (hexVal (cs.takeWhile isHexDigit))
  | cs =>
      if cs.takeWhile Char.isDigit = [] then none
      else some (digitsVal (cs.takeWhile Char.isDigit))

/-- The function `parseInt(s)` of JavaScript: leading white space is skipped,
a sign may follow, then the digits; `none` is `NaN`. -/
def parseInt (s : String) : Option Int :=
  match s.data.dropWhile Char.isWhitespace with
  | '-' :: cs => (parseMagnitude cs).map (fun n => -(n : Int))
  | '+' :: cs => (parseMagnitude cs).map (fun n => (n : Int))
  | cs => (parseMagnitude cs).map (fun n => (n : Int))

/-- The integer that a string of the form `[-+]?[0-9]+` writes. -/
def intText (s : String) : Option Int :=
  match s.data with
  | '-' :: ds => if ds ≠ [] ∧ ds.all Char.isDigit then some (-(digitsVal ds : Int)) else none
  | '+' :: ds => if ds ≠ [] ∧ ds.all Char.isDigit then some (digitsVal ds : Int) else none
  | ds => if ds ≠ [] ∧ ds.all Char.isDigit then some (digitsVal ds : Int) else none

/-- The validator `.isInt({ min: lo })` or `.isInt({ min: lo, max: hi })`. -/
def isInt (lo : Int) (hi : Option Int) (s : String) : Bool :=
  match intText s with
  | none => false
  | some n => decide (lo ≤ n) && optAll hi (fun h => decide (n ≤ h))

/-- A rule `query(k).optional()...`: skipped when the parameter is
`undefined`. -/
def optionalQuery (v : Option String) (rule : String → Bool) : Bool :=
  match v with
  | none => true
  | some s => rule s

namespace ReportRoutes

/-- The chain `queryValidation` of `routes/reports.js`: `true` when it records
no error. -/
def queryValidation (q : ReportQuery) : Bool :=
  optionalQuery q.page (isInt 1 none) &&
  optionalQuery q.limit (isInt 1 (some 100)) &&
  optionalQuery q.status (fun s => reportStatuses.contains s) &&
  optionalQuery q.category (fun s => reportCategories.contains s) &&
  optionalQuery q.sortBy (fun s => ["date", "title", "status", "createdAt"].contains s) &&
  optionalQuery q.sortOrder (fun s => ["asc", "desc"].contains s)

end ReportRoutes

namespace TaskRoutes

/-- The chain `queryValidation` of `routes/tasks.js`. -/
def queryValidation (q : TaskQuery) : Bool :=
  optionalQuery q.page (isInt 1 none) &&
  optionalQuery q.limit (isInt 1 (some 100)) &&
  optionalQuery q.status (fun s => taskStatuses.contains s) &&
  optionalQuery q.priority (fun s => taskPriorities.contains s) &&
  optionalQuery q.category (fun s => taskCategories.contains s) &&
  optionalQuery q.sortBy
    (fun s => ["title", "status", "priority", "dueDate", "createdAt", "updatedAt"].contains s) &&
  optionalQuery q.sortOrder (fun s => ["asc", "desc"].contains s)

end TaskRoutes

/-- The call `Model.find(filter).sort(sort).skip(skip).limit(limit)` together
with `Model.countDocuments(filter)`.  `sort` is the one key of the sort object
with its direction; a `none` in `skip` or `limit` is `NaN`. -/
structure FindCall (F : Type) where
  filter : F
  sort : String × Int
  skip : Option Int
  limit : Option Int

/-- The sort object `sort[sortBy] = sortOrder === 'desc' ? -1 : 1`. -/
def sortObject (sortBy sortOrder : String) : String × Int :=
  (sortBy, if sortOrder = "desc" then -1 else 1)

/-- The expression `(parseInt(page) - 1) * parseInt(limit)`. -/
def skipOf (page limit : String) : Option Int :=
  match parseInt page, parseInt limit with
  | some p, some l => some ((p - 1) * l)
  | _, _ => none

/-- The expression `Math.ceil(total / parseInt(limit))` as it is serialised:
`NaN` and the infinities become `null`. -/
def pagesOf (total : Nat) (limit : Option Int) : Option Int :=
  match limit with
  | none => none
  | some l => if l = 0 then none else some (-(Int.fdiv (-(total : Int)) l))

/-- The body of a list response. -/
structure ListResponse (D : Type) where
  status : Nat
  success : Bool
  message : String
  count : Nat
  total : Nat
  page : Option Int
  limit : Option Int
  pages : Option Int
  data : List D

/-- The `catch` branch of a list handler. -/
def listFailure {D : Type} (message : String) : ListResponse D :=
  { status := 500, success := false, message := message, count := 0, total := 0,
    page := none, limit := none, pages := none, data := [] }

namespace ReportController

/-- Lines 11-69 of `getReports`: the call made on the store, with the
defaults of the destructuring (`page = 1`, `limit = 10`, `sortBy = 'date'`,
`sortOrder = 'desc'`). -/
def getReportsFind (user : Identity) (q : ReportQuery) : FindCall ReportFilter :=
  { filter := getReportsFilter user q
    sort := sortObject (q.sortBy.getD "date") (q.sortOrder.getD "desc")
    skip := skipOf (q.page.getD "1") (q.limit.getD "10")
    limit := parseInt (q.limit.getD "10") }

/-- The handler `getReports`, behind `queryValidation`, whose result it never
reads.  `exec` is the store answering the call with the documents and the
total count, or throwing (`none`). -/
def getReports (exec : FindCall ReportFilter → Option (List Report × Nat)) (user : Identity)
    (q : ReportQuery) : ListResponse Report :=
  match exec (getReportsFind user q) with
  | none => listFailure "Server error getting reports"
  | some (reports, total) =>
      { status := 200, success := true, message := "", count := reports.length, total := total,
        page := parseInt (q.page.getD "1"), limit := parseInt (q.limit.getD "10"),
        pages := pagesOf total (parseInt (q.limit.getD "10")), data := reports }

end ReportController

namespace TaskController

/-- Lines 10-59 of `getTasks`: the call made on the store, with the defaults
of the destructuring (`sortBy = 'createdAt'`). -/
def getTasksFind (user : Identity) (q : TaskQuery) : FindCall TaskFilter :=
  { filter := getTasksFilter user q
    sort := sortObject (q.sortBy.getD "createdAt") (q.sortOrder.getD "desc")
    skip := skipOf (q.page.getD "1") (q.limit.getD "10")
    limit := parseInt (q.limit.getD "10") }

/-- The handler `getTasks`, behind `queryValidation`, whose result it never
reads. -/
def getTasks (exec : FindCall TaskFilter → Option (List Task × Nat)) (user : Identity)
    (q : TaskQuery) : ListResponse Task :=
  match exec (getTasksFind user q) with
  | none => listFailure "Server error getting tasks"
  | some (tasks, total) =>
      { status := 200, success := true, message := "", count := tasks.length, total := total,
        page := parseInt (q.page.getD "1"), limit := parseInt (q.limit.getD "10"),
        pages := pagesOf total (parseInt (q.limit.getD "10")), data := tasks }

end TaskController

/-! ## Search, own tasks and statistics: the filters -/

/-- The pieces of a character list between the occurrences of `sep`. -/
def splitChars (sep : Char) : List Char → List (List Char)
  | [] => [[]]
  | c :: cs =>
      if c = sep then [] :: splitChars sep cs
      else
        match splitChars sep cs with
        | [] => [[c]]
        | w :: ws => (c :: w) :: ws

/-- The call `s.split(',')`. -/
def splitComma (s : String) : List String :=
  (splitChars ',' s.data).map String.mk

/-- The filter object of `searchTasks`: `statusIn` is the array under
`status.$in`, `or` the array under `$or`. -/
structure SearchFilter where
  isActive : Bool
  assignedTo : String
  statusIn : List String
  or : List TaskClause
deriving DecidableEq, Repr

/-- Lines 268-278 of `searchTasks`: the filter for the search text `q` and
the `status` parameter, whose default is `'pending,in_progress'`. -/
def searchTasksFilter (user : Identity) (q : String) (status : Option String) : SearchFilter :=
  { isActive := true
    assignedTo := user.id
    statusIn := splitComma (status.getD "pending,in_progress")
    or := [.titleRegex q, .descriptionRegex q] }

/-- The store's reading of a search filter. -/
def SearchFilter.matches (I : Interp) (f : SearchFilter) (t : Task) : Bool :=
  (t.isActive == f.isActive) && (t.assignedTo == f.assignedTo) &&
  f.statusIn.contains t.status && f.or.any (TaskClause.holds I t)

/-- Lines 307-311 of `getMyTasks`: the filter object. -/
def getMyTasksFilter (user : Identity) : TaskFilter :=
  { isActive := some true, assignedTo := some user.id }

/-- Lines 389-394 of `getTaskStats`: the `$match` filter of both
aggregations. -/
def getTaskStatsFilter (user : Identity) : TaskFilter :=
  let filter : TaskFilter := { isActive := some true }
  -- If user is not admin, only show their tasks
  if user.role ≠ "admin" then { filter with assignedTo := some user.id } else filter

/-- The filter of the overdue count of `getTaskStats`: the keys of `base`
with `status: { $nin: ... }` and `dueDate: { $lt: ... }`. -/
structure OverdueFilter where
  base : TaskFilter
  statusNin : List String
  dueDateLt : Int
deriving DecidableEq, Repr

/-- Lines 416-420 of `getTaskStats`: the filter of `countDocuments`, `now`
being `new Date()`. -/
def getTaskStatsOverdueFilter (now : Int) (user : Identity) : OverdueFilter :=
  { base := getTaskStatsFilter user
    statusNin := ["completed", "cancelled"]
    dueDateLt := now }

/-- The store's reading of the overdue filter.  `base` has no `status` key,
so the spread keeps all of its keys. -/
def OverdueFilter.matches (I : Interp) (f : OverdueFilter) (t : Task) : Bool :=
  f.base.matches I t && !(f.statusNin.contains t.status) && decide (t.dueDate < f.dueDateLt)

/-- The document that `deleteTask` leaves in the store for a loaded task: an
active task gets `isActive` false and the `updatedAt` stamp of the save, an
inactive one is not written. -/
def deletedTask (now : Int) (task : Task) : Task :=
  if task.isActive then { task with isActive := false, updatedAt := now } else task

/-! ## Further sample data -/

/-- A completed task of `alice` with one comment of the admin. -/
def doneTask : Task where
  id := "64b000000000000000000002"
  title := "Prepare the release notes"
  description := "Collect the changes of the release"
  assignedTo := "u1"
  assignedBy := "a1"
  status := "completed"
  priority := "high"
  category := "documentation"
  dueDate := 4000
  startDate := 1000
  completedDate := some 3000
  tags := ["release"]
  comments := [{ user := "a1", content := "Well done", createdAt := 3500 }]
  isActive := true
  estimatedHours := some 4
  actualHours := some 5
  createdAt := 1000
  updatedAt := 3500

/-- A report of `bob` with one comment of the admin. -/
def annotatedReport : Report :=
  { bobsReport with
    id := "r3"
    comments := [{ user := "a1", content := "Please add the numbers", createdAt := 1500 }] }

/-- A store holding the two sample tasks and the annotated report. -/
def archiveStore : Store :=
  { reports := [bobsReport, annotatedReport], tasks := [alicesTask, doneTask] }

/-- The id of a task that is in no sample store. -/
def missingTaskId : String := "64b0000000000000000000ff"

/-! ## Reports of one user -/

namespace ReportController

/-- Lines 347-367 of `getUserReports`: the call made on the store.  The sort
object is the literal `{ date: -1 }`. -/
def getUserReportsFind (userId : String) (q : ReportQuery) : FindCall ReportFilter :=
  let filter : ReportFilter := { author := some userId }
  let filter :=
    match present q.status with
    | some v => { filter with status := some v }
    | none => filter
  let filter :=
    match present q.category with
    | some v => { filter with category := some v }
    | none => filter
  { filter := filter
    sort := ("date", -1)
    skip := skipOf (q.page.getD "1") (q.limit.getD "10")
    limit := parseInt (q.limit.getD "10") }

/-- The handler `getUserReports`; `userId` is `req.params.userId`. -/
def getUserReports (exec : FindCall ReportFilter → Option (List Report × Nat))
    (user : Identity) (userId : String) (q : ReportQuery) : ListResponse Report :=
  -- Check if user can access other user's reports
  if user.role ≠ "admin" ∧ userId ≠ user.id then
    { status := 403, success := false, message := "Not authorized to access these reports",
      count := 0, total := 0, page := none, limit := none, pages := none, data := [] }
  else
    match exec (getUserReportsFind userId q) with
    | none => listFailure "Server error getting user reports"
    | some (reports, total) =>
        { status := 200, success := true, message := "", count := reports.length,
          total := total, page := parseInt (q.page.getD "1"),
          limit := parseInt (q.limit.getD "10"),
          pages := pagesOf total (parseInt (q.limit.getD "10")), data := reports }

end ReportController

/-! ## Task search -/

/-- The property `length` of a JavaScript string: UTF-16 code units. -/
def jsLength (s : String) : Nat :=
  (s.data.map (fun c => if c.toNat < 65536 then 1 else 2)).sum

/-- The fields destructured from `req.query` by `searchTasks`. -/
structure SearchQuery where
  q : Option String := none
  status : Option String := none
  limit : Option String := none
deriving DecidableEq, Repr

/-- The call `Task.find(filter).select(select).sort(sort).limit(limit)`; the
sort object is listed key by key in its order. -/
structure SearchCall (F : Type) where
  filter : F
  select : List String
  sort : List (String × Int)
  limit : Option Int
deriving DecidableEq, Repr

/-- The body of the answer of `searchTasks`. -/
structure SearchResponse where
  status : Nat
  success : Bool
  message : String
  count : Nat
  data : List Task
deriving DecidableEq, Repr

namespace TaskController

/-- Lines 259-283 of `searchTasks`: the call made on the store, or `none`
when the handler returns at the test `!q || q.trim().length < 2`. -/
def searchTasksCall (user : Identity) (sq : SearchQuery) : Option (SearchCall SearchFilter) :=
  match sq.q with
  | none => none
  | some q =>
      if q = "" ∨ jsLength (jsTrim q) < 2 then none
      else
        some
          { filter := searchTasksFilter user q sq.status
            select := ["title", "description", "status", "priority", "dueDate", "category"]
            sort := [("dueDate", 1), ("priority", -1)]
            limit := parseInt (sq.limit.getD "20") }

/-- The handler `searchTasks`; `exec` is the store answering the call or
throwing. -/
def searchTasks (exec : SearchCall SearchFilter → Option (List Task)) (user : Identity)
    (sq : SearchQuery) : SearchResponse :=
  match searchTasksCall user sq with
  | none =>
      { status := 400, success := false,
        message := "Search query must be at least 2 characters", count := 0, data := [] }
  | some call =>
      match exec call with
      | none =>
          { status := 500, success := false, message := "Server error searching tasks",
            count := 0, data := [] }
      | some tasks =>
          { status := 200, success := true, message := "", count := tasks.length, data := tasks }

end TaskController

/-! ## Task statistics -/

/-- The store's reading of a task filter that reaches it without casting, as
the `$match` stage of `Task.aggregate` does: the values under `assignedTo`
and `assignedBy` are the strings of the request (`req.user.id`), the documents
hold an `ObjectId` on these paths, and a string equals no `ObjectId`.  The
other paths hold booleans and strings, which need no cast. -/
def TaskFilter.matchesUncast (I : Interp) (f : TaskFilter) (t : Task) : Bool :=
  optAll f.isActive (fun v => t.isActive == v) &&
  optAll f.assignedTo (fun _ => false) &&
  optAll f.status (fun v => t.status == v) &&
  optAll f.priority (fun v => t.priority == v) &&
  optAll f.category (fun v => t.category == v) &&
  optAll f.assignedBy (fun _ => false) &&
  optAll f.or (fun cs => cs.any (TaskClause.holds I t))

/-- The stage `{ $group: { _id: key, count: { $sum: 1 } } }`: one entry for
each value of the key, with the number of documents that have it. -/
def groupCount (key : Task → String) (ts : List Task) : List (String × Nat) :=
  (ts.map key).dedup.map (fun k => (k, (ts.map key).count k))

/-- The `data` member of the answer of `getTaskStats`. -/
structure TaskStats where
  statusStats : List (String × Nat)
  priorityStats : List (String × Nat)
  overdueCount : Nat
deriving DecidableEq, Repr

namespace TaskController

/-- The handler `getTaskStats` on the task collection of the store, `now`
being `new Date()`.  The two `Task.aggregate` pipelines get the filter as
their `$match` stage, which Mongoose hands to the store without casting;
`Task.countDocuments` casts its filter like `find`. -/
def getTaskStats (I : Interp) (now : Int) (s : Store) (user : Identity) : TaskStats :=
  let filter := getTaskStatsFilter user
  { statusStats := groupCount (fun t => t.status) (s.tasks.filter (filter.matchesUncast I))
    priorityStats :=
      groupCount (fun t => t.priority) (s.tasks.filter (filter.matchesUncast I))
    overdueCount :=
      (s.tasks.filter ((getTaskStatsOverdueFilter now user).matches I)).length }

end TaskController

/-! ## Derived fields of a task (`models/Task.js`) -/

/-- The expression `Math.ceil(a / b)` on integers, with the quotient taken
exactly. -/
def ceilDiv (a b : Int) : Int :=
  -(Int.fdiv (-a) b)

/-- The virtual `daysUntilDue`, `now` being `new Date()`. -/
def Task.daysUntilDue (now : Int) (t : Task) : Int :=
  ceilDiv (t.dueDate - now) (1000 * 60 * 60 * 24)

/-- The virtual `isOverdue`. -/
def Task.isOverdue (now : Int) (t : Task) : Bool :=
  t.status != "completed" && decide (t.dueDate < now)

/-! ## Helpers (`utils/helpers.js`) -/

/-- The call `parseInt(v)` on a value: a number is printed in decimal and read
back, an array is printed as its elements joined by commas, so that reading
stops after the first element; `none` is `NaN`. -/
def parseIntOf : Val → Option Int
  | .num n => some n
  | .str s => parseInt s
  | .date text _ => parseInt text
  | .strs xs => parseInt (xs.headD "")
  | _ => none

/-- The expression `x || d` on the result of `parseInt`: `NaN` and 0 are
falsy. -/
def orDefault (x : Option Int) (d : Int) : Int :=
  match x with
  | some n => if n = 0 then d else n
  | none => d

/-- The object returned by `calculatePagination`; `none` is `null`. -/
structure Pagination where
  currentPage : Int
  itemsPerPage : Int
  totalItems : Int
  totalPages : Int
  hasNextPage : Bool
  hasPrevPage : Bool
  nextPage : Option Int
  prevPage : Option Int
deriving DecidableEq, Repr

/-- The helper `calculatePagination`. -/
def calculatePagination (page limit total : Val) : Pagination :=
  let currentPage := orDefault (parseIntOf page) 1
  let itemsPerPage := orDefault (parseIntOf limit) 10
  let totalItems := orDefault (parseIntOf total) 0
  let totalPages := ceilDiv totalItems itemsPerPage
  let hasNextPage := decide (currentPage < totalPages)
  let hasPrevPage := decide (currentPage > 1)
  { currentPage := currentPage
    itemsPerPage := itemsPerPage
    totalItems := totalItems
    totalPages := totalPages
    hasNextPage := hasNextPage
    hasPrevPage := hasPrevPage
    nextPage := if hasNextPage then some (currentPage + 1) else none
    prevPage := if hasPrevPage then some (currentPage - 1) else none }

/-- The class `\w` of a regular expression. -/
def isWordChar (c : Char) : Bool :=
  c.isAlphanum || c = '_'

/-- The call `.replace(/[<>]/g, '')`. -/
def removeAngles (cs : List Char) : List Char :=
  cs.filter (fun c => c != '<' && c != '>')

/-- Whether `/javascript:/i` matches at the front of the characters. -/
def protocolAhead (cs : List Char) : Bool :=
  "javascript:".data.isPrefixOf (cs.map Char.toLower)

/-- One left-to-right pass deleting the matches of `/javascript:/gi`; the
first argument bounds the number of steps. -/
def removeProtocolAux : Nat → List Char → List Char
  | 0, cs => cs
  | _ + 1, [] => []
  | n + 1, c :: cs =>
      if protocolAhead (c :: cs) then removeProtocolAux n ((c :: cs).drop 11)
      else c :: removeProtocolAux n cs

/-- The call `.replace(/javascript:/gi, '')`: the matches are found in the
string as it is before the call, and each is deleted once. -/
def removeProtocol (cs : List Char) : List Char :=
  removeProtocolAux cs.length cs

/-- The characters after a match of `/on\w+=/i` at the front, if there is
one: `on`, the longest run of at least one word character, and `=`. -/
def handlerAhead : List Char → Option (List Char)
  | o :: n :: rest =>
      if o.toLower = 'o' ∧ n.toLower = 'n' ∧ rest.takeWhile isWordChar ≠ [] then
        match rest.dropWhile isWordChar with
        | '=' :: tail => some tail
        | _ => none
      else none
  | _ => none

/-- One left-to-right pass deleting the matches of `/on\w+=/gi`. -/
def removeHandlersAux : Nat → List Char → List Char
  | 0, cs => cs
  | _ + 1, [] => []
  | n + 1, c :: cs =>
      match handlerAhead (c :: cs) with
      | some tail => removeHandlersAux n tail
      | none => c :: removeHandlersAux n cs

/-- The call `.replace(/on\w+=/gi, '')`. -/
def removeHandlers (cs : List Char) : List Char :=
  removeHandlersAux cs.length cs

/-- The chain of `sanitizeInput` on a string. -/
def sanitizeString (s : String) : String :=
  jsTrim ⟨removeHandlers (removeProtocol (removeAngles s.data))⟩

/-- The helper `sanitizeInput`: a value that is no string is returned as it
is. -/
def sanitizeInput : Val → Val
  | .str s => .str (sanitizeString s)
  | .date text _ => .str (sanitizeString text)
  | v => v

/-- The visible scope of the statistics in the words of the specification:
the active tasks, for a non-admin those assigned to the caller. -/
def statsScope (s : Store) (user : Identity) : List Task :=
  s.tasks.filter (fun t => t.isActive && (decide (user.role = "admin") || t.assignedTo == user.id))

/-! ## Patterns with `.` -/

/-- One character of a pattern against one character of a text under option
`i`: `.` stands for every character except a line break, every other
character of the pattern for itself in either letter case. -/
def dotAtom (p c : Char) : Bool :=
  if p = '.' then c != '\n' else p.toLower == c.toLower

/-- The pattern at the start of the text. -/
def dotMatchHere : List Char → List Char → Bool
  | [], _ => true
  | _ :: _, [] => false
  | p :: ps, c :: cs => dotAtom p c && dotMatchHere ps cs

/-- The test `{ $regex: pat, $options: 'i' }` of the store for the patterns
whose only metacharacter is `.`: the pattern matches somewhere in the text. -/
def dotRegexI (pat text : String) : Bool :=
  text.data.tails.any (dotMatchHere pat.data)

/-- The sample interpretation with `.` read as a regular expression reads
it. -/
def dotInterp : Interp where
  regexI := dotRegexI
  newDate := sampleInterp.newDate

/-! # Theorems -/

/-! ## The filter builders in closed form -/

theorem getTasksFilter_eq (user : Identity) (q : TaskQuery) :
    getTasksFilter user q =
      { isActive := some true
        assignedTo := if user.role ≠ "admin" then some user.id else present q.assignedTo
        status := present q.status
        priority := present q.priority
        category := present q.category
        assignedBy := if user.role = "admin" then present q.assignedBy else none
        or := (present q.search).map
          (fun s => [.titleRegex s, .descriptionRegex s, .tagsInRegex s]) } := by
  unfold getTasksFilter
  generalize present q.status = o1
  generalize present q.priority = o2
  generalize present q.category = o3
  generalize present q.assignedTo = o4
  generalize present q.assignedBy = o5
  generalize present q.search = o6
  by_cases h : user.role = "admin"
  · simp only [h, ne_eq, not_true_eq_false, if_false, if_true]
    cases o1 <;> cases o2 <;> cases o3 <;> cases o4 <;> cases o5 <;> cases o6 <;> rfl
  · simp only [h, ne_eq, not_false_eq_true, if_false, if_true]
    cases o1 <;> cases o2 <;> cases o3 <;> cases o4 <;> cases o5 <;> cases o6 <;> rfl

theorem getReportsFilter_eq (user : Identity) (q : ReportQuery) :
    getReportsFilter user q =
      { or :=
          match present q.search with
          | some s => some [.titleRegex s, .contentRegex s, .tagsInRegex s]
          | none => if user.role ≠ "admin" then some [.authorEq user.id, .isPublicEq true] else none
        status := present q.status
        category := present q.category
        author := if user.role = "admin" then present q.author else none
        date :=
          if (present q.startDate).isSome || (present q.endDate).isSome then
            some { gte := present q.startDate, lte := present q.endDate }
          else none } := by
  unfold getReportsFilter
  generalize present q.status = o1
  generalize present q.category = o2
  generalize present q.author = o3
  generalize present q.startDate = o4
  generalize present q.endDate = o5
  generalize present q.search = o6
  by_cases h : user.role = "admin"
  · simp only [h, ne_eq, not_true_eq_false, if_false, if_true]
    cases o1 <;> cases o2 <;> cases o3 <;> cases o4 <;> cases o5 <;> cases o6 <;> rfl
  · simp only [h, ne_eq, not_false_eq_true, if_false, if_true]
    cases o1 <;> cases o2 <;> cases o3 <;> cases o4 <;> cases o5 <;> cases o6 <;> rfl

/-- A filter with an `isActive` key matches only tasks with that flag. -/
theorem TaskFilter.matches_isActive (I : Interp) (f : TaskFilter) (t : Task) (b : Bool)
    (hf : f.isActive = some b) (hm : f.matches I t = true) : t.isActive = b := by
  simp [TaskFilter.matches, hf, optAll] at hm
  exact hm.1.1.1.1.1.1

/-- A filter with an `assignedTo` key matches only tasks of that assignee. -/
theorem TaskFilter.matches_assignedTo (I : Interp) (f : TaskFilter) (t : Task) (a : String)
    (hf : f.assignedTo = some a) (hm : f.matches I t = true) : t.assignedTo = a := by
  simp [TaskFilter.matches, hf, optAll] at hm
  exact hm.1.1.1.1.1.2

/-- A filter with an `assignedBy` key matches only tasks of that assigner. -/
theorem TaskFilter.matches_assignedBy (I : Interp) (f : TaskFilter) (t : Task) (a : String)
    (hf : f.assignedBy = some a) (hm : f.matches I t = true) : t.assignedBy = a := by
  simp [TaskFilter.matches, hf, optAll] at hm
  exact hm.1.2

/-- A filter with an `author` key matches only reports of that author. -/
theorem ReportFilter.matches_author (I : Interp) (f : ReportFilter) (r : Report) (a : String)
    (hf : f.author = some a) (hm : f.matches I r = true) : r.author = a := by
  simp [ReportFilter.matches, hf, optAll] at hm
  exact hm.1.2

/-! ## Report list scope (C1) -/

/-- Whenever a search term is supplied, the `$or` key of the report filter
holds the three search clauses and nothing else, for every caller. -/
theorem getReportsFilter_or_of_search (user : Identity) (q : ReportQuery) (s : String)
    (hs : present q.search = some s) :
    (getReportsFilter user q).or = some [.titleRegex s, .contentRegex s, .tagsInRegex s] := by
  rw [getReportsFilter_eq]
  simp [hs]

/-- Without a search term, the report filter of a non-admin caller matches
only reports that the caller wrote or that are public. -/
theorem getReportsFilter_scope_of_no_search (I : Interp) (user : Identity) (q : ReportQuery)
    (r : Report) (hrole : user.role ≠ "admin") (hs : present q.search = none)
    (hm : (getReportsFilter user q).matches I r = true) :
    r.author = user.id ∨ r.isPublic = true := by
  rw [getReportsFilter_eq] at hm
  simp [ReportFilter.matches, hs, hrole, optAll, ReportClause.holds] at hm
  exact hm.1.1.1

/-- C1, on the code: for the non-admin caller `alice` and the query
`search=salary`, the `$or` key of the filter that `getReports` hands to the
store holds the search clauses only, and the filter matches a private report
written by another user.  The scope clause is replaced by the search clause,
not conjoined with it. -/
theorem getReports_search_replaces_scope :
    alice.role ≠ "admin" ∧
    (getReportsFilter alice { search := some "salary" }).or
      = some [.titleRegex "salary", .contentRegex "salary", .tagsInRegex "salary"] ∧
    bobsReport.author ≠ alice.id ∧ bobsReport.isPublic = false ∧
    (getReportsFilter alice { search := some "salary" }).matches sampleInterp bobsReport
      = true := by
  decide

/-! ## Task list scope (C2) -/

/-- C2: for every caller and every query of `getTasks`, the filter has
`isActive: true`; for a non-admin it has `assignedTo: caller.id`, for an admin
its `assignedTo` key is the supplied parameter or absent; and every task the
filter matches is active and, for a non-admin, assigned to the caller. -/
theorem getTasks_filter_scope (I : Interp) (user : Identity) (q : TaskQuery) :
    (getTasksFilter user q).isActive = some true ∧
    (user.role ≠ "admin" → (getTasksFilter user q).assignedTo = some user.id) ∧
    (user.role = "admin" → (getTasksFilter user q).assignedTo = present q.assignedTo) ∧
    (∀ t : Task, (getTasksFilter user q).matches I t = true →
      t.isActive = true ∧ (user.role ≠ "admin" → t.assignedTo = user.id)) := by
  have hA : (getTasksFilter user q).isActive = some true := by rw [getTasksFilter_eq]
  have hU : user.role ≠ "admin" → (getTasksFilter user q).assignedTo = some user.id := by
    intro h
    rw [getTasksFilter_eq]
    simp [h]
  refine ⟨hA, hU, ?_, ?_⟩
  · intro h
    rw [getTasksFilter_eq]
    simp [h]
  · intro t hm
    exact ⟨TaskFilter.matches_isActive I _ t true hA hm,
      fun h => TaskFilter.matches_assignedTo I _ t user.id (hU h) hm⟩

/-- C2 at the non-admin `alice` with every parameter supplied, among them
`assignedTo=u2`: the filter still requires her own id and `isActive`. -/
theorem getTasks_filter_scope_witness :
    alice.role ≠ "admin" ∧
    (getTasksFilter alice fullTaskQuery).isActive = some true ∧
    (getTasksFilter alice fullTaskQuery).assignedTo = some "u1" :=
  ⟨by decide, (getTasks_filter_scope sampleInterp alice fullTaskQuery).1,
    (getTasks_filter_scope sampleInterp alice fullTaskQuery).2.1 (by decide)⟩

/-! ## Narrowing parameters (C3) -/

/-- C3: for a non-admin caller the report filter does not depend on `author`
and the task filter does not depend on `assignedTo` and `assignedBy`; for an
admin each of the three parameters, when supplied (a non-empty value), is an
equality key of the filter, so that every matched record has that value. -/
theorem narrowing_only_for_admin (I : Interp) (user : Identity) (qr : ReportQuery)
    (qt : TaskQuery) :
    (user.role ≠ "admin" → ∀ a : Option String,
      getReportsFilter user { qr with author := a } = getReportsFilter user qr) ∧
    (user.role ≠ "admin" → ∀ a b : Option String,
      getTasksFilter user { qt with assignedTo := a, assignedBy := b }
        = getTasksFilter user qt) ∧
    (user.role = "admin" → ∀ a : String, present qr.author = some a →
      (getReportsFilter user qr).author = some a ∧
      ∀ r : Report, (getReportsFilter user qr).matches I r = true → r.author = a) ∧
    (user.role = "admin" → ∀ a : String, present qt.assignedTo = some a →
      (getTasksFilter user qt).assignedTo = some a ∧
      ∀ t : Task, (getTasksFilter user qt).matches I t = true → t.assignedTo = a) ∧
    (user.role = "admin" → ∀ a : String, present qt.assignedBy = some a →
      (getTasksFilter user qt).assignedBy = some a ∧
      ∀ t : Task, (getTasksFilter user qt).matches I t = true → t.assignedBy = a) := by
  refine ⟨?_, ?_, ?_, ?_, ?_⟩
  · intro h a
    rw [getReportsFilter_eq, getReportsFilter_eq]
    simp [h]
  · intro h a b
    rw [getTasksFilter_eq, getTasksFilter_eq]
    simp [h]
  · intro h a ha
    have hf : (getReportsFilter user qr).author = some a := by
      rw [getReportsFilter_eq]
      simp [h, ha]
    exact ⟨hf, fun r hm => ReportFilter.matches_author I _ r a hf hm⟩
  · intro h a ha
    have hf : (getTasksFilter user qt).assignedTo = some a := by
      rw [getTasksFilter_eq]
      simp [h, ha]
    exact ⟨hf, fun t hm => TaskFilter.matches_assignedTo I _ t a hf hm⟩
  · intro h a ha
    have hf : (getTasksFilter user qt).assignedBy = some a := by
      rw [getTasksFilter_eq]
      simp [h, ha]
    exact ⟨hf, fun t hm => TaskFilter.matches_assignedBy I _ t a hf hm⟩

/-- C3 at concrete callers: `alice` gains nothing from `author=u2` or from
`assignedTo=u2&assignedBy=a1`, and the admin `root` gets the `assignedTo: u2`
key. -/
theorem narrowing_only_for_admin_witness :
    getReportsFilter alice { author := some "u2" } = getReportsFilter alice {} ∧
    getTasksFilter alice { assignedTo := some "u2", assignedBy := some "a1" }
      = getTasksFilter alice {} ∧
    (getTasksFilter root fullTaskQuery).assignedTo = some "u2" :=
  ⟨(narrowing_only_for_admin sampleInterp alice {} {}).1 (by decide) (some "u2"),
    (narrowing_only_for_admin sampleInterp alice {} {}).2.1 (by decide) (some "u2") (some "a1"),
    ((narrowing_only_for_admin sampleInterp root {} fullTaskQuery).2.2.2.1 (by decide) "u2"
      (by decide)).1⟩

/-! ## Lemmas on bodies and schema writes -/

theorem Payload.get_delete (body : Payload) (k j : String) :
    (body.delete k).get j = if j = k then none else body.get j := by
  induction body with
  | nil => simp [Payload.delete, Payload.get]
  | cons e es ih =>
    obtain ⟨a, v⟩ := e
    simp only [Payload.delete, Payload.get] at ih ⊢
    by_cases hak : a = k
    · subst hak
      by_cases hja : j = a
      · simp [List.filter, hja] at ih ⊢
        simpa [hja] using ih
      · have hne : (j == a) = false := by simpa using hja
        simp [List.filter, List.lookup, hne, hja] at ih ⊢
        simpa [hja] using ih
    · have hne : (a != k) = true := by simpa using hak
      by_cases hja : j = a
      · subst hja
        simp [List.filter, List.lookup, hne, hak]
      · have hne2 : (j == a) = false := by simpa using hja
        simp only [List.filter, hne, List.lookup, hne2]
        exact ih

/-- Folding a list of partial writes keeps every projection that each single
write keeps. -/
theorem foldlM_frame {D β : Type} (proj : D → β) (fs : List (D → Option D))
    (h : ∀ f ∈ fs, ∀ d d', f d = some d' → proj d' = proj d) :
    ∀ d d', fs.foldlM (fun (d : D) (f : D → Option D) => f d) d = some d' →
      proj d' = proj d := by
  induction fs with
  | nil =>
    intro d d' hd
    simp [List.foldlM] at hd
    rw [hd]
  | cons f fs ih =>
    intro d d' hd
    simp only [List.foldlM_cons, Option.bind_eq_bind, Option.bind_eq_some] at hd
    obtain ⟨d1, h1, h2⟩ := hd
    have hfs : ∀ g ∈ fs, ∀ d d', g d = some d' → proj d' = proj d :=
      fun g hg => h g (List.mem_cons_of_mem f hg)
    rw [ih hfs d1 d' h2, h f (List.mem_cons_self f fs) d d1 h1]

/-- A schema path keeps a projection when its key is absent from the document
or when storing into the path does not touch the projection. -/
theorem setPath_frame {α D β : Type} (proj : D → β) (doc : Payload) (k : String)
    (cast : Val → Option α) (store : D → α → D)
    (h : doc.get k = none ∨ ∀ d a, proj (store d a) = proj d) :
    ∀ d d', setPath doc k cast store d = some d' → proj d' = proj d := by
  intro d d' hd
  unfold setPath at hd
  rcases h with h | h
  · rw [h] at hd
    simp at hd
    rw [hd]
  · split at hd
    · simp at hd
      rw [hd]
    · simp only [Option.map_eq_some'] at hd
      obtain ⟨a, _, rfl⟩ := hd
      exact h d a

/-- A write of a document without the key `status` keeps a report's status. -/
theorem Report.applyUpdate_status (now : Int) (doc : Payload) (r r' : Report)
    (hk : doc.get "status" = none) (h : Report.applyUpdate now doc r = some r') :
    r'.status = r.status := by
  simp only [Report.applyUpdate, Option.map_eq_some'] at h
  obtain ⟨r1, h1, rfl⟩ := h
  refine foldlM_frame (fun d : Report => d.status) _ ?_ r r1 h1
  intro f hf
  simp only [Report.paths, List.mem_cons, List.mem_singleton, List.not_mem_nil, or_false] at hf
  rcases hf with rfl | rfl | rfl | rfl | rfl | rfl | rfl | rfl | rfl | rfl | rfl | rfl
  all_goals first
    | exact setPath_frame _ _ _ _ _ (Or.inr fun _ _ => rfl)
    | exact setPath_frame _ _ _ _ _ (Or.inl hk)

/-- A write of a document without the key `approvedBy` keeps that field. -/
theorem Report.applyUpdate_approvedBy (now : Int) (doc : Payload) (r r' : Report)
    (hk : doc.get "approvedBy" = none) (h : Report.applyUpdate now doc r = some r') :
    r'.approvedBy = r.approvedBy := by
  simp only [Report.applyUpdate, Option.map_eq_some'] at h
  obtain ⟨r1, h1, rfl⟩ := h
  refine foldlM_frame (fun d : Report => d.approvedBy) _ ?_ r r1 h1
  intro f hf
  simp only [Report.paths, List.mem_cons, List.mem_singleton, List.not_mem_nil, or_false] at hf
  rcases hf with rfl | rfl | rfl | rfl | rfl | rfl | rfl | rfl | rfl | rfl | rfl | rfl
  all_goals first
    | exact setPath_frame _ _ _ _ _ (Or.inr fun _ _ => rfl)
    | exact setPath_frame _ _ _ _ _ (Or.inl hk)

/-- A write of a document without the key `approvedAt` keeps that field. -/
theorem Report.applyUpdate_approvedAt (now : Int) (doc : Payload) (r r' : Report)
    (hk : doc.get "approvedAt" = none) (h : Report.applyUpdate now doc r = some r') :
    r'.approvedAt = r.approvedAt := by
  simp only [Report.applyUpdate, Option.map_eq_some'] at h
  obtain ⟨r1, h1, rfl⟩ := h
  refine foldlM_frame (fun d : Report => d.approvedAt) _ ?_ r r1 h1
  intro f hf
  simp only [Report.paths, List.mem_cons, List.mem_singleton, List.not_mem_nil, or_false] at hf
  rcases hf with rfl | rfl | rfl | rfl | rfl | rfl | rfl | rfl | rfl | rfl | rfl | rfl
  all_goals first
    | exact setPath_frame _ _ _ _ _ (Or.inr fun _ _ => rfl)
    | exact setPath_frame _ _ _ _ _ (Or.inl hk)

/-- A write of a document without the key `assignedTo` keeps the assignee. -/
theorem Task.applyUpdate_assignedTo (now : Int) (doc : Payload) (t t' : Task)
    (hk : doc.get "assignedTo" = none) (h : Task.applyUpdate now doc t = some t') :
    t'.assignedTo = t.assignedTo := by
  simp only [Task.applyUpdate, Option.map_eq_some'] at h
  obtain ⟨t1, h1, rfl⟩ := h
  refine foldlM_frame (fun d : Task => d.assignedTo) _ ?_ t t1 h1
  intro f hf
  simp only [Task.paths, List.mem_cons, List.mem_singleton, List.not_mem_nil, or_false] at hf
  rcases hf with rfl | rfl | rfl | rfl | rfl | rfl | rfl | rfl | rfl | rfl | rfl | rfl | rfl
    | rfl | rfl
  all_goals first
    | exact setPath_frame _ _ _ _ _ (Or.inr fun _ _ => rfl)
    | exact setPath_frame _ _ _ _ _ (Or.inl hk)

/-- A write of a document without the key `assignedBy` keeps the assigner. -/
theorem Task.applyUpdate_assignedBy (now : Int) (doc : Payload) (t t' : Task)
    (hk : doc.get "assignedBy" = none) (h : Task.applyUpdate now doc t = some t') :
    t'.assignedBy = t.assignedBy := by
  simp only [Task.applyUpdate, Option.map_eq_some'] at h
  obtain ⟨t1, h1, rfl⟩ := h
  refine foldlM_frame (fun d : Task => d.assignedBy) _ ?_ t t1 h1
  intro f hf
  simp only [Task.paths, List.mem_cons, List.mem_singleton, List.not_mem_nil, or_false] at hf
  rcases hf with rfl | rfl | rfl | rfl | rfl | rfl | rfl | rfl | rfl | rfl | rfl | rfl | rfl
    | rfl | rfl
  all_goals first
    | exact setPath_frame _ _ _ _ _ (Or.inr fun _ _ => rfl)
    | exact setPath_frame _ _ _ _ _ (Or.inl hk)

/-- A write of a document without the key `priority` keeps the priority. -/
theorem Task.applyUpdate_priority (now : Int) (doc : Payload) (t t' : Task)
    (hk : doc.get "priority" = none) (h : Task.applyUpdate now doc t = some t') :
    t'.priority = t.priority := by
  simp only [Task.applyUpdate, Option.map_eq_some'] at h
  obtain ⟨t1, h1, rfl⟩ := h
  refine foldlM_frame (fun d : Task => d.priority) _ ?_ t t1 h1
  intro f hf
  simp only [Task.paths, List.mem_cons, List.mem_singleton, List.not_mem_nil, or_false] at hf
  rcases hf with rfl | rfl | rfl | rfl | rfl | rfl | rfl | rfl | rfl | rfl | rfl | rfl | rfl
    | rfl | rfl
  all_goals first
    | exact setPath_frame _ _ _ _ _ (Or.inr fun _ _ => rfl)
    | exact setPath_frame _ _ _ _ _ (Or.inl hk)

/-- The keys of the body that `updateReport` writes for a non-admin. -/
theorem reportUpdateData_get (user : Identity) (body : Payload) (k : String)
    (h : user.role ≠ "admin") :
    (ReportController.updateData user body).get k =
      if k = "status" ∨ k = "approvedBy" ∨ k = "approvedAt" then none else body.get k := by
  simp only [ReportController.updateData, h, ne_eq, not_false_eq_true, if_true,
    Payload.get_delete]
  by_cases h1 : k = "status" <;> by_cases h2 : k = "approvedBy" <;>
    by_cases h3 : k = "approvedAt" <;> simp [h1, h2, h3]

/-- The keys of the body that `updateTask` writes for a non-admin. -/
theorem taskUpdateData_get (user : Identity) (body : Payload) (k : String)
    (h : user.role ≠ "admin") :
    (TaskController.updateData user body).get k =
      if k = "assignedTo" ∨ k = "assignedBy" ∨ k = "priority" then none else body.get k := by
  simp only [TaskController.updateData, h, ne_eq, not_false_eq_true, if_true,
    Payload.get_delete]
  by_cases h1 : k = "assignedTo" <;> by_cases h2 : k = "assignedBy" <;>
    by_cases h3 : k = "priority" <;> simp [h1, h2, h3]

/-- Saving a task to which one comment was pushed: the status is not
modified, so the middleware leaves the task as it is, and `updatedAt` is
stamped. -/
theorem taskSave_push (now : Int) (s : Store) (task : Task) (c : Comment) :
    Task.save now s task { task with comments := task.comments ++ [c] } =
      ({ task with comments := task.comments ++ [c], updatedAt := now },
        s.putTask { task with comments := task.comments ++ [c], updatedAt := now }) := by
  have hne : ({ task with comments := task.comments ++ [c] } : Task) ≠ task := by
    intro h
    have := congrArg (fun t : Task => t.comments.length) h
    simp at this
  simp [Task.save, hne, Task.preSave]

/-- Saving a report to which one comment was pushed. -/
theorem reportSave_push (now : Int) (s : Store) (report : Report) (c : Comment) :
    Report.save now s report { report with comments := report.comments ++ [c] } =
      ({ report with comments := report.comments ++ [c], updatedAt := now },
        s.putReport { report with comments := report.comments ++ [c], updatedAt := now }) := by
  have hne : ({ report with comments := report.comments ++ [c] } : Report) ≠ report := by
    intro h
    have := congrArg (fun r : Report => r.comments.length) h
    simp at this
  simp [Report.save, hne, Report.preSave]

/-! ## Single-record task guard (C4) -/

/-- C4: for an existing task, `getTask`, `updateTask` (on a body that passes
`updateTaskValidation`) and the task `addComment` answer 403 exactly when the
caller is no admin and not the assignee, and then leave the store as it is.
Otherwise `getTask` returns the record, `updateTask` writes the accepted
update and returns the new record, and `addComment` appends the accepted
comment. -/
theorem task_guard (now : Int) (s : Store) (user : Identity) (id : String) (task : Task)
    (body cbody : Payload) (hfind : Task.findById s id = some task)
    (hvalid : updateTaskValidation body = true) :
    (TaskController.getTask s user id =
      if user.role = "admin" ∨ task.assignedTo = user.id then
        { status := 200, success := true, message := "", data := .task task }
      else failure 403 "Not authorized to access this task") ∧
    ((TaskController.updateTask now s user id body).1.status = 403 ↔
      ¬ (user.role = "admin" ∨ task.assignedTo = user.id)) ∧
    (¬ (user.role = "admin" ∨ task.assignedTo = user.id) →
      (TaskController.updateTask now s user id body).2 = s) ∧
    (user.role = "admin" ∨ task.assignedTo = user.id →
      ∀ t' : Task, Task.applyUpdate now (TaskController.updateData user body) task = some t' →
        TaskController.updateTask now s user id body =
          ({ status := 200, success := true, message := "Task updated successfully",
             data := .task t' }, s.putTask t')) ∧
    ((TaskController.addComment now s user id cbody).1.status = 403 ↔
      ¬ (user.role = "admin" ∨ task.assignedTo = user.id)) ∧
    (¬ (user.role = "admin" ∨ task.assignedTo = user.id) →
      (TaskController.addComment now s user id cbody).2 = s) ∧
    (user.role = "admin" ∨ task.assignedTo = user.id →
      ∀ c : String, commentContentPath (cbody.get "content") = some c →
        TaskController.addComment now s user id cbody =
          ({ status := 200, success := true, message := "Comment added successfully",
             data := .comment { user := user.id, content := c, createdAt := now } },
            s.putTask { task with
              comments := task.comments ++ [{ user := user.id, content := c, createdAt := now }],
              updatedAt := now })) := by
  by_cases hallow : user.role = "admin" ∨ task.assignedTo = user.id
  · have hguard : ¬ (user.role ≠ "admin" ∧ task.assignedTo ≠ user.id) := by
      intro h
      rcases hallow with h1 | h1
      · exact h.1 h1
      · exact h.2 h1
    refine ⟨?_, ?_, ?_, ?_, ?_, ?_, ?_⟩
    · simp [TaskController.getTask, hfind, hguard, hallow]
    · simp only [TaskController.updateTask, hvalid, hfind, hguard, Task.findByIdAndUpdate]
      cases hup : Task.applyUpdate now (TaskController.updateData user body) task <;>
        simp [failure, hallow]
    · intro h
      exact absurd hallow h
    · intro _ t' ht'
      simp [TaskController.updateTask, hvalid, hfind, hguard, Task.findByIdAndUpdate, ht']
    · simp only [TaskController.addComment, hfind, hguard]
      cases hc : commentContentPath (cbody.get "content") <;> simp [failure, hallow]
    · intro h
      exact absurd hallow h
    · intro _ c hc
      simp [TaskController.addComment, hfind, hguard, hc, taskSave_push]
  · have hguard : user.role ≠ "admin" ∧ task.assignedTo ≠ user.id :=
      ⟨fun h => hallow (Or.inl h), fun h => hallow (Or.inr h)⟩
    refine ⟨?_, ?_, ?_, ?_, ?_, ?_, ?_⟩
    · simp [TaskController.getTask, hfind, hguard, hallow]
    · simp [TaskController.updateTask, hvalid, hfind, hguard, hallow, failure]
    · intro _
      simp [TaskController.updateTask, hvalid, hfind, hguard]
    · intro h
      exact absurd h hallow
    · simp [TaskController.addComment, hfind, hguard, hallow, failure]
    · intro _
      simp [TaskController.addComment, hfind, hguard]
    · intro h
      exact absurd h hallow

/-- C4 on the sample store, whose task is assigned to `alice`: `bob` is
refused by `getTask` and `updateTask`, `alice` and the admin `root` receive
the record. -/
theorem task_guard_witness :
    Task.findById sampleStore alicesTask.id = some alicesTask ∧
    updateTaskValidation [("status", .str "in_progress")] = true ∧
    TaskController.getTask sampleStore bob alicesTask.id
      = failure 403 "Not authorized to access this task" ∧
    TaskController.getTask sampleStore alice alicesTask.id
      = { status := 200, success := true, message := "", data := .task alicesTask } ∧
    TaskController.getTask sampleStore root alicesTask.id
      = { status := 200, success := true, message := "", data := .task alicesTask } ∧
    (TaskController.updateTask 2000 sampleStore bob alicesTask.id
      [("status", .str "in_progress")]).1.status = 403 :=
  ⟨by decide, by decide,
    (task_guard 2000 sampleStore bob alicesTask.id alicesTask [("status", .str "in_progress")] []
      (by decide) (by decide)).1.trans (if_neg (by decide)),
    (task_guard 2000 sampleStore alice alicesTask.id alicesTask [("status", .str "in_progress")]
      [] (by decide) (by decide)).1.trans (if_pos (by decide)),
    (task_guard 2000 sampleStore root alicesTask.id alicesTask [("status", .str "in_progress")]
      [] (by decide) (by decide)).1.trans (if_pos (by decide)),
    (task_guard 2000 sampleStore bob alicesTask.id alicesTask [("status", .str "in_progress")] []
      (by decide) (by decide)).2.1.mpr (by decide)⟩

/-! ## Report read and comment guard (C5) -/

/-- C5: for an existing report, `getReport` and the report `addComment` answer
403 exactly when the caller is no admin, is not the author, and the report is
not public; then the store is left as it is.  In every other case `getReport`
returns the record and `addComment` appends the accepted comment. -/
theorem report_read_comment_guard (now : Int) (s : Store) (user : Identity) (id : String)
    (report : Report) (cbody : Payload) (hfind : Report.findById s id = some report) :
    ((ReportController.getReport s user id).status = 403 ↔
      (user.role ≠ "admin" ∧ report.author ≠ user.id ∧ report.isPublic = false)) ∧
    (¬ (user.role ≠ "admin" ∧ report.author ≠ user.id ∧ report.isPublic = false) →
      ReportController.getReport s user id =
        { status := 200, success := true, message := "", data := .report report }) ∧
    ((ReportController.addComment now s user id cbody).1.status = 403 ↔
      (user.role ≠ "admin" ∧ report.author ≠ user.id ∧ report.isPublic = false)) ∧
    ((user.role ≠ "admin" ∧ report.author ≠ user.id ∧ report.isPublic = false) →
      (ReportController.addComment now s user id cbody).2 = s) ∧
    (¬ (user.role ≠ "admin" ∧ report.author ≠ user.id ∧ report.isPublic = false) →
      ∀ c : String, commentContentPath (cbody.get "content") = some c →
        ReportController.addComment now s user id cbody =
          ({ status := 200, success := true, message := "Comment added successfully",
             data := .comment { user := user.id, content := c, createdAt := now } },
            s.putReport { report with
              comments := report.comments ++ [{ user := user.id, content := c, createdAt := now }],
              updatedAt := now })) := by
  by_cases hden : user.role ≠ "admin" ∧ report.author ≠ user.id ∧ report.isPublic = false
  · have hguard : user.role ≠ "admin" ∧ report.author ≠ user.id ∧ ¬ report.isPublic = true := by
      refine ⟨hden.1, hden.2.1, ?_⟩
      simp [hden.2.2]
    refine ⟨?_, ?_, ?_, ?_, ?_⟩
    · simp [ReportController.getReport, hfind, hguard, hden, failure]
    · intro h
      exact absurd hden h
    · simp [ReportController.addComment, hfind, hguard, hden, failure]
    · intro _
      simp [ReportController.addComment, hfind, hguard]
    · intro h
      exact absurd hden h
  · have hguard :
        ¬ (user.role ≠ "admin" ∧ report.author ≠ user.id ∧ ¬ report.isPublic = true) := by
      intro h
      apply hden
      refine ⟨h.1, h.2.1, ?_⟩
      simpa using h.2.2
    refine ⟨?_, ?_, ?_, ?_, ?_⟩
    · simp only [ReportController.getReport, hfind]
      rw [if_neg hguard]
      simp [hden]
    · intro _
      simp only [ReportController.getReport, hfind]
      rw [if_neg hguard]
    · simp only [ReportController.addComment, hfind]
      rw [if_neg hguard]
      cases hc : commentContentPath (cbody.get "content") <;> simp [failure, hden]
    · intro h
      exact absurd h hden
    · intro _ c hc
      simp only [ReportController.addComment, hfind]
      rw [if_neg hguard]
      simp [hc, reportSave_push]

/-- C5 on the sample store, whose report is a private report of `bob`:
`alice` is refused, `bob` and the admin `root` read it. -/
theorem report_read_comment_guard_witness :
    Report.findById sampleStore "r1" = some bobsReport ∧
    (ReportController.getReport sampleStore alice "r1").status = 403 ∧
    (ReportController.addComment 2000 sampleStore alice "r1" [("content", .str "hi")]).1.status
      = 403 ∧
    ReportController.getReport sampleStore bob "r1"
      = { status := 200, success := true, message := "", data := .report bobsReport } ∧
    ReportController.getReport sampleStore root "r1"
      = { status := 200, success := true, message := "", data := .report bobsReport } :=
  ⟨by decide,
    (report_read_comment_guard 2000 sampleStore alice "r1" bobsReport [("content", .str "hi")]
      (by decide)).1.mpr (by decide),
    (report_read_comment_guard 2000 sampleStore alice "r1" bobsReport [("content", .str "hi")]
      (by decide)).2.2.1.mpr (by decide),
    (report_read_comment_guard 2000 sampleStore bob "r1" bobsReport [] (by decide)).2.1
      (by decide),
    (report_read_comment_guard 2000 sampleStore root "r1" bobsReport [] (by decide)).2.1
      (by decide)⟩

/-! ## Report update and delete guard (C6) -/

/-- Deleting by id leaves no document with that id. -/
theorem Report.findById_findByIdAndDelete (s : Store) (id : String) :
    Report.findById (Report.findByIdAndDelete s id) id = none := by
  simp [Report.findById, Report.findByIdAndDelete, List.find?_eq_none]

/-- C6: for an existing report, `updateReport` (on a body that passes
`updateReportValidation`) and `deleteReport` answer 403 exactly when the
caller is no admin and not the author, whatever `isPublic` is, and then leave
the store as it is.  `deleteReport` by the author or an admin answers 200 and
removes the record: afterwards no report has that id, the other reports and
the tasks are as before. -/
theorem report_write_guard (now : Int) (s : Store) (user : Identity) (id : String)
    (report : Report) (body : Payload) (hfind : Report.findById s id = some report)
    (hvalid : updateReportValidation body = true) :
    ((ReportController.updateReport now s user id body).1.status = 403 ↔
      (user.role ≠ "admin" ∧ report.author ≠ user.id)) ∧
    ((user.role ≠ "admin" ∧ report.author ≠ user.id) →
      (ReportController.updateReport now s user id body).2 = s) ∧
    ((ReportController.deleteReport s user id).1.status = 403 ↔
      (user.role ≠ "admin" ∧ report.author ≠ user.id)) ∧
    ((user.role ≠ "admin" ∧ report.author ≠ user.id) →
      (ReportController.deleteReport s user id).2 = s) ∧
    (¬ (user.role ≠ "admin" ∧ report.author ≠ user.id) →
      (ReportController.deleteReport s user id).1.status = 200 ∧
      Report.findById (ReportController.deleteReport s user id).2 id = none ∧
      (ReportController.deleteReport s user id).2.reports
        = s.reports.filter (fun r => r.id != id) ∧
      (ReportController.deleteReport s user id).2.tasks = s.tasks) := by
  by_cases hden : user.role ≠ "admin" ∧ report.author ≠ user.id
  · refine ⟨?_, ?_, ?_, ?_, ?_⟩
    · simp [ReportController.updateReport, hvalid, hfind, hden, failure]
    · intro _
      simp [ReportController.updateReport, hvalid, hfind, hden]
    · simp [ReportController.deleteReport, hfind, hden, failure]
    · intro _
      simp [ReportController.deleteReport, hfind, hden]
    · intro h
      exact absurd hden h
  · refine ⟨?_, ?_, ?_, ?_, ?_⟩
    · simp only [ReportController.updateReport, hvalid, hfind, hden,
        Report.findByIdAndUpdate]
      cases hup : Report.applyUpdate now (ReportController.updateData user body) report <;>
        simp [failure]
    · intro h
      exact absurd h hden
    · simp [ReportController.deleteReport, hfind, hden]
    · intro h
      exact absurd h hden
    · intro _
      have hdel : ReportController.deleteReport s user id =
          ({ status := 200, success := true, message := "Report deleted successfully" },
            Report.findByIdAndDelete s id) := by
        simp [ReportController.deleteReport, hfind, hden]
      rw [hdel]
      exact ⟨rfl, Report.findById_findByIdAndDelete s id, rfl, rfl⟩

/-- C6 on the sample store: `alice` can neither update nor delete the public
report of `bob`, and the store stays as it is; `bob` deletes it. -/
theorem report_write_guard_witness :
    bobsPublicReport.isPublic = true ∧
    (ReportController.updateReport 2000 sampleStore alice "r2" [("title", .str "x")]).1.status
      = 403 ∧
    (ReportController.deleteReport sampleStore alice "r2").1.status = 403 ∧
    (ReportController.deleteReport sampleStore alice "r2").2 = sampleStore ∧
    (ReportController.deleteReport sampleStore bob "r2").1.status = 200 ∧
    Report.findById (ReportController.deleteReport sampleStore bob "r2").2 "r2" = none :=
  ⟨by decide,
    (report_write_guard 2000 sampleStore alice "r2" bobsPublicReport [("title", .str "x")]
      (by decide) (by decide)).1.mpr (by decide),
    (report_write_guard 2000 sampleStore alice "r2" bobsPublicReport [("title", .str "x")]
      (by decide) (by decide)).2.2.1.mpr (by decide),
    (report_write_guard 2000 sampleStore alice "r2" bobsPublicReport [("title", .str "x")]
      (by decide) (by decide)).2.2.2.1 (by decide),
    ((report_write_guard 2000 sampleStore bob "r2" bobsPublicReport [] (by decide)
      (by decide)).2.2.2.2 (by decide)).1,
    ((report_write_guard 2000 sampleStore bob "r2" bobsPublicReport [] (by decide)
      (by decide)).2.2.2.2 (by decide)).2.1⟩

/-! ## Field stripping on report update (C7) -/

/-- C7: when `updateReport` passes its guard on a body that passes
`updateReportValidation`, the document it writes is, for a non-admin, the body
without the keys `status`, `approvedBy` and `approvedAt` and with every other
key as in the body, and for an admin the body itself.  The request is not
answered 400 or 403; when the store accepts the write the answer is 200 with
the written record, and for a non-admin the three fields keep their values. -/
theorem updateReport_strips_fields (now : Int) (s : Store) (user : Identity) (id : String)
    (report : Report) (body : Payload) (hfind : Report.findById s id = some report)
    (hvalid : updateReportValidation body = true)
    (hallowed : user.role = "admin" ∨ report.author = user.id) :
    (user.role ≠ "admin" → ∀ k : String,
      (ReportController.updateData user body).get k =
        if k = "status" ∨ k = "approvedBy" ∨ k = "approvedAt" then none else body.get k) ∧
    (user.role = "admin" → ReportController.updateData user body = body) ∧
    (ReportController.updateReport now s user id body).1.status ≠ 400 ∧
    (ReportController.updateReport now s user id body).1.status ≠ 403 ∧
    (∀ r' : Report,
      Report.applyUpdate now (ReportController.updateData user body) report = some r' →
        ReportController.updateReport now s user id body =
          ({ status := 200, success := true, message := "Report updated successfully",
             data := .report r' }, s.putReport r') ∧
        (user.role ≠ "admin" →
          r'.status = report.status ∧ r'.approvedBy = report.approvedBy ∧
          r'.approvedAt = report.approvedAt)) := by
  have hguard : ¬ (user.role ≠ "admin" ∧ report.author ≠ user.id) := by
    intro h
    rcases hallowed with h1 | h1
    · exact h.1 h1
    · exact h.2 h1
  refine ⟨fun h k => reportUpdateData_get user body k h, ?_, ?_, ?_, ?_⟩
  · intro h
    simp [ReportController.updateData, h]
  · simp only [ReportController.updateReport, hvalid, hfind, hguard, Report.findByIdAndUpdate]
    cases hup : Report.applyUpdate now (ReportController.updateData user body) report <;>
      simp [failure]
  · simp only [ReportController.updateReport, hvalid, hfind, hguard, Report.findByIdAndUpdate]
    cases hup : Report.applyUpdate now (ReportController.updateData user body) report <;>
      simp [failure]
  · intro r' hr'
    refine ⟨?_, ?_⟩
    · simp [ReportController.updateReport, hvalid, hfind, hguard, Report.findByIdAndUpdate, hr']
    · intro h
      have hk : ∀ k : String, (k = "status" ∨ k = "approvedBy" ∨ k = "approvedAt") →
          (ReportController.updateData user body).get k = none := by
        intro k hk
        rw [reportUpdateData_get user body k h, if_pos hk]
      exact ⟨Report.applyUpdate_status now _ report r' (hk _ (Or.inl rfl)) hr',
        Report.applyUpdate_approvedBy now _ report r' (hk _ (Or.inr (Or.inl rfl))) hr',
        Report.applyUpdate_approvedAt now _ report r' (hk _ (Or.inr (Or.inr rfl))) hr'⟩

/-- C7 on the sample store: the author `bob`, a non-admin, sends
`{status: 'approved', title: 'x'}`; the answer is 200, the title is changed and
the status stays `draft`. -/
theorem updateReport_strips_fields_witness :
    bob.role ≠ "admin" ∧
    ReportController.updateReport 2000 sampleStore bob "r1"
        [("status", .str "approved"), ("title", .str "x")] =
      ({ status := 200, success := true, message := "Report updated successfully",
         data := .report { bobsReport with title := "x", updatedAt := 2000 } },
        sampleStore.putReport { bobsReport with title := "x", updatedAt := 2000 }) ∧
    ({ bobsReport with title := "x", updatedAt := 2000 } : Report).status = "draft" :=
  ⟨by decide,
    ((updateReport_strips_fields 2000 sampleStore bob "r1" bobsReport
      [("status", .str "approved"), ("title", .str "x")] (by decide) (by decide) (by decide)
      ).2.2.2.2 { bobsReport with title := "x", updatedAt := 2000 } (by decide)).1,
    by decide⟩

/-! ## Field stripping on task update (C8) -/

/-- C8: when `updateTask` passes its guard on a body that passes
`updateTaskValidation`, the document it writes is, for a non-admin, the body
without the keys `assignedTo`, `assignedBy` and `priority` and with every
other key as in the body, and for an admin the body itself.  When the store
accepts the write the answer is 200 with the written record, and for a
non-admin the three fields keep their values. -/
theorem updateTask_strips_fields (now : Int) (s : Store) (user : Identity) (id : String)
    (task : Task) (body : Payload) (hfind : Task.findById s id = some task)
    (hvalid : updateTaskValidation body = true)
    (hallowed : user.role = "admin" ∨ task.assignedTo = user.id) :
    (user.role ≠ "admin" → ∀ k : String,
      (TaskController.updateData user body).get k =
        if k = "assignedTo" ∨ k = "assignedBy" ∨ k = "priority" then none else body.get k) ∧
    (user.role = "admin" → TaskController.updateData user body = body) ∧
    (∀ t' : Task,
      Task.applyUpdate now (TaskController.updateData user body) task = some t' →
        TaskController.updateTask now s user id body =
          ({ status := 200, success := true, message := "Task updated successfully",
             data := .task t' }, s.putTask t') ∧
        (user.role ≠ "admin" →
          t'.assignedTo = task.assignedTo ∧ t'.assignedBy = task.assignedBy ∧
          t'.priority = task.priority)) := by
  have hguard : ¬ (user.role ≠ "admin" ∧ task.assignedTo ≠ user.id) := by
    intro h
    rcases hallowed with h1 | h1
    · exact h.1 h1
    · exact h.2 h1
  refine ⟨fun h k => taskUpdateData_get user body k h, ?_, ?_⟩
  · intro h
    simp [TaskController.updateData, h]
  · intro t' ht'
    refine ⟨?_, ?_⟩
    · simp [TaskController.updateTask, hvalid, hfind, hguard, Task.findByIdAndUpdate, ht']
    · intro h
      have hk : ∀ k : String, (k = "assignedTo" ∨ k = "assignedBy" ∨ k = "priority") →
          (TaskController.updateData user body).get k = none := by
        intro k hk
        rw [taskUpdateData_get user body k h, if_pos hk]
      exact ⟨Task.applyUpdate_assignedTo now _ task t' (hk _ (Or.inl rfl)) ht',
        Task.applyUpdate_assignedBy now _ task t' (hk _ (Or.inr (Or.inl rfl))) ht',
        Task.applyUpdate_priority now _ task t' (hk _ (Or.inr (Or.inr rfl))) ht'⟩

/-- C8 on the sample store: the assignee `alice`, a non-admin, sends
`assignedTo`, `priority`, `status` and `dueDate`; the status and the due date
are written, the assignee and the priority stay.  For the admin `root` the
same body is written as it is. -/
theorem updateTask_strips_fields_witness :
    alice.role ≠ "admin" ∧
    TaskController.updateTask 2000 sampleStore alice alicesTask.id
        [("assignedTo", .str "u2"), ("priority", .str "urgent"),
         ("status", .str "in_progress"), ("dueDate", .date "2030-01-01" 9000)] =
      ({ status := 200, success := true, message := "Task updated successfully",
         data := .task
           { alicesTask with status := "in_progress", dueDate := 9000, updatedAt := 2000 } },
        sampleStore.putTask
          { alicesTask with status := "in_progress", dueDate := 9000, updatedAt := 2000 }) ∧
    TaskController.updateData root
        [("assignedTo", .str "u2"), ("priority", .str "urgent"),
         ("status", .str "in_progress"), ("dueDate", .date "2030-01-01" 9000)] =
      [("assignedTo", .str "u2"), ("priority", .str "urgent"),
       ("status", .str "in_progress"), ("dueDate", .date "2030-01-01" 9000)] :=
  ⟨by decide,
    ((updateTask_strips_fields 2000 sampleStore alice alicesTask.id alicesTask
      [("assignedTo", .str "u2"), ("priority", .str "urgent"),
       ("status", .str "in_progress"), ("dueDate", .date "2030-01-01" 9000)]
      (by decide) (by decide) (by decide)).2.2
      { alicesTask with status := "in_progress", dueDate := 9000, updatedAt := 2000 }
      (by decide)).1,
    (updateTask_strips_fields 2000 sampleStore root alicesTask.id alicesTask
      [("assignedTo", .str "u2"), ("priority", .str "urgent"),
       ("status", .str "in_progress"), ("dueDate", .date "2030-01-01" 9000)]
      (by decide) (by decide) (by decide)).2.1 (by decide)⟩

/-! ## Soft deletion by a non-admin (C9) -/

/-- C9, on the code: the non-admin assignee `alice` sends `{isActive: false}`
to `updateTask`.  The body passes `updateTaskValidation`, the key is not
stripped, the answer is 200 and the stored task has `isActive` false: the
task is soft-deleted by a non-admin. -/
theorem updateTask_nonadmin_clears_isActive :
    alice.role ≠ "admin" ∧ alicesTask.assignedTo = alice.id ∧ alicesTask.isActive = true ∧
    updateTaskValidation [("isActive", .bool false)] = true ∧
    TaskController.updateData alice [("isActive", .bool false)] = [("isActive", .bool false)] ∧
    (TaskController.updateTask 2000 sampleStore alice alicesTask.id
      [("isActive", .bool false)]).1.status = 200 ∧
    Task.findById
        (TaskController.updateTask 2000 sampleStore alice alicesTask.id
          [("isActive", .bool false)]).2 alicesTask.id
      = some { alicesTask with isActive := false, updatedAt := 2000 } := by
  decide

/-! ## Report linked to a task (C10) -/

/-- A `task` key that passes `createReportValidation` is not the empty
string. -/
theorem createReportValidation_task_ne (body : Payload) (taskId : String)
    (hvalid : createReportValidation body = true)
    (hkey : body.get "task" = some (.str taskId)) : taskId ≠ "" := by
  have h : optionalRule body "task" isMongoId = true := by
    simp only [createReportValidation, Bool.and_eq_true] at hvalid
    exact hvalid.2
  simp only [optionalRule, hkey, isMongoId, Val.texts, List.all_cons, List.all_nil,
    Bool.and_true, Bool.and_eq_true, decide_eq_true_eq] at h
  intro he
  rw [he] at h
  exact absurd h.1 (by decide)

/-- C10: for a body that passes `createReportValidation` and whose `task`
names an existing task, `createReport` answers 403 exactly when the caller is
no admin and not the assignee of that task, and then creates nothing.  For
the assignee and for an admin the report is created, with status 201,
whenever the schema accepts the document. -/
theorem createReport_linked_task_guard (now : Int) (newId : String) (s : Store)
    (user : Identity) (body : Payload) (taskId : String) (task : Task)
    (hvalid : createReportValidation body = true)
    (hkey : body.get "task" = some (.str taskId))
    (hfind : Task.findById s taskId = some task) :
    ((ReportController.createReport now newId s user body).1.status = 403 ↔
      (user.role ≠ "admin" ∧ task.assignedTo ≠ user.id)) ∧
    ((user.role ≠ "admin" ∧ task.assignedTo ≠ user.id) →
      (ReportController.createReport now newId s user body).2 = s) ∧
    (¬ (user.role ≠ "admin" ∧ task.assignedTo ≠ user.id) →
      ∀ r : Report, Report.fromPayload now newId (body.set "author" (.str user.id)) = some r →
        ReportController.createReport now newId s user body =
          ({ status := 201, success := true, message := "Report created successfully",
             data := .report r }, { s with reports := s.reports ++ [r] })) := by
  have hne : taskId ≠ "" := createReportValidation_task_ne body taskId hvalid hkey
  by_cases hden : user.role ≠ "admin" ∧ task.assignedTo ≠ user.id
  · refine ⟨?_, ?_, ?_⟩
    · simp [ReportController.createReport, hvalid, hkey, hne, hfind, hden, failure]
    · intro _
      simp [ReportController.createReport, hvalid, hkey, hne, hfind, hden]
    · intro h
      exact absurd hden h
  · refine ⟨?_, ?_, ?_⟩
    · simp only [ReportController.createReport, hvalid, hkey, hne, hfind, hden,
        Report.create]
      cases hr : Report.fromPayload now newId (body.set "author" (.str user.id)) <;>
        simp [failure, hden]
    · intro h
      exact absurd h hden
    · intro _ r hr
      simp [ReportController.createReport, hvalid, hkey, hne, hfind, hden, Report.create, hr]

/-- C10 on the sample store, whose task is assigned to `alice`: `bob` is
answered 403 and nothing is created, `alice` is answered 201 and her report
is appended to the collection. -/
theorem createReport_linked_task_guard_witness :
    (ReportController.createReport 2000 "r9" sampleStore bob
      [("title", .str "Day 1"), ("content", .str "Done"), ("task", .str alicesTask.id)]
      ).1.status = 403 ∧
    (ReportController.createReport 2000 "r9" sampleStore bob
      [("title", .str "Day 1"), ("content", .str "Done"), ("task", .str alicesTask.id)]
      ).2 = sampleStore ∧
    ReportController.createReport 2000 "r9" sampleStore alice
        [("title", .str "Day 1"), ("content", .str "Done"), ("task", .str alicesTask.id)] =
      ({ status := 201, success := true, message := "Report created successfully",
         data := .report
           { Report.blank 2000 "r9" with
             title := "Day 1", content := "Done", author := "u1", task := some alicesTask.id } },
        { sampleStore with
          reports := sampleStore.reports ++
            [{ Report.blank 2000 "r9" with
               title := "Day 1", content := "Done", author := "u1",
               task := some alicesTask.id }] }) :=
  ⟨(createReport_linked_task_guard 2000 "r9" sampleStore bob
      [("title", .str "Day 1"), ("content", .str "Done"), ("task", .str alicesTask.id)]
      alicesTask.id alicesTask (by decide) (by decide) (by decide)).1.mpr (by decide),
    (createReport_linked_task_guard 2000 "r9" sampleStore bob
      [("title", .str "Day 1"), ("content", .str "Done"), ("task", .str alicesTask.id)]
      alicesTask.id alicesTask (by decide) (by decide) (by decide)).2.1 (by decide),
    (createReport_linked_task_guard 2000 "r9" sampleStore alice
      [("title", .str "Day 1"), ("content", .str "Done"), ("task", .str alicesTask.id)]
      alicesTask.id alicesTask (by decide) (by decide) (by decide)).2.2 (by decide)
      { Report.blank 2000 "r9" with
        title := "Day 1", content := "Done", author := "u1", task := some alicesTask.id }
      (by decide)⟩

/-! ## Lemmas on the store -/

/-- The document found under an id has that id. -/
theorem Task.findById_id (s : Store) (id : String) (t : Task)
    (h : Task.findById s id = some t) : t.id = id := by
  have := List.find?_some h
  simpa using this

/-- After writing back a document with the looked-up id, the lookup finds it. -/
theorem Task.findById_putTask (s : Store) (id : String) (t t' : Task)
    (h : Task.findById s id = some t) (hid : t'.id = id) :
    Task.findById (s.putTask t') id = some t' := by
  obtain ⟨reports, tasks⟩ := s
  simp only [Task.findById, Store.putTask] at h ⊢
  induction tasks with
  | nil => simp at h
  | cons x xs ih =>
    by_cases hx : x.id = id
    · simp [List.find?, hx, hid]
    · have hx' : (x.id == id) = false := by simpa using hx
      have hx2 : (x.id == t'.id) = false := by simpa [hid] using hx
      simp only [List.find?, hx'] at h
      simp only [List.map, hx2, Bool.false_eq_true, if_false, List.find?, hx']
      exact ih h

/-- Writing back a document does not change the lookup of another id. -/
theorem Task.findById_putTask_ne (s : Store) (id other : String) (t' : Task)
    (hid : t'.id = id) (hne : other ≠ id) :
    Task.findById (s.putTask t') other = Task.findById s other := by
  obtain ⟨reports, tasks⟩ := s
  simp only [Task.findById, Store.putTask]
  induction tasks with
  | nil => simp
  | cons x xs ih =>
    by_cases hx : x.id = t'.id
    · have h1 : (x.id == other) = false := by
        simp only [beq_eq_false_iff_ne, ne_eq]
        intro h
        exact hne (by rw [← h, hx, hid])
      have h2 : (t'.id == other) = false := by
        simp only [beq_eq_false_iff_ne, ne_eq]
        intro h
        exact hne (by rw [← h, hid])
      simp only [List.map, hx, beq_self_eq_true, if_true, List.find?, h1, h2]
      exact ih
    · have hx' : (x.id == t'.id) = false := by simpa using hx
      simp only [List.map, hx', Bool.false_eq_true, if_false, List.find?]
      by_cases ho : x.id = other
      · simp [ho]
      · have ho' : (x.id == other) = false := by simpa using ho
        simp only [ho']
        exact ih

/-- The key that `{ ...body, k: v }` sets is read back. -/
theorem Payload.get_set (body : Payload) (k : String) (v : Val) :
    (body.set k v).get k = some v := by
  simp [Payload.set, Payload.get, List.lookup]

/-! ## Report creation: missing task and author (C11, C12) -/

/-- C11 as stated fails: for `alice` and a valid body whose `task` names no
stored task, `createReport` answers 400, which is not the 404 of the
handlers that load a record by id, and creates nothing. -/
theorem createReport_missing_task_not_404 :
    createReportValidation
      [("title", .str "Day 1"), ("content", .str "Done"), ("task", .str missingTaskId)] = true ∧
    Task.findById sampleStore missingTaskId = none ∧
    (ReportController.createReport 2000 "r9" sampleStore alice
      [("title", .str "Day 1"), ("content", .str "Done"), ("task", .str missingTaskId)]
      ).1.status = 400 ∧
    (ReportController.createReport 2000 "r9" sampleStore alice
      [("title", .str "Day 1"), ("content", .str "Done"), ("task", .str missingTaskId)]
      ).1.status ≠ 404 ∧
    (ReportController.getReport sampleStore alice "r0").status = 404 := by
  decide

/-- C11 as amended: for a body that passes `createReportValidation` and whose
`task` names no stored task, `createReport` answers with status 400 and the
message `Task not found`, and leaves the store as it is. -/
theorem createReport_missing_task (now : Int) (newId : String) (s : Store) (user : Identity)
    (body : Payload) (taskId : String) (hvalid : createReportValidation body = true)
    (hkey : body.get "task" = some (.str taskId))
    (hfind : Task.findById s taskId = none) :
    ReportController.createReport now newId s user body
      = (failure 400 "Task not found", s) := by
  have hne : taskId ≠ "" := createReportValidation_task_ne body taskId hvalid hkey
  simp [ReportController.createReport, hvalid, hkey, hne, hfind]

/-- C11 as amended, on the sample store with a task id that is not stored. -/
theorem createReport_missing_task_witness :
    ReportController.createReport 2000 "r9" sampleStore alice
        [("title", .str "Day 1"), ("content", .str "Done"), ("task", .str missingTaskId)]
      = (failure 400 "Task not found", sampleStore) :=
  createReport_missing_task 2000 "r9" sampleStore alice
    [("title", .str "Day 1"), ("content", .str "Done"), ("task", .str missingTaskId)]
    missingTaskId (by decide) (by decide) (by decide)

/-- A schema path keeps a projection that storing into the path does not
touch. -/
theorem setPath_keeps {α D β : Type} (proj : D → β) {doc : Payload} {k : String}
    {cast : Val → Option α} {store : D → α → D} {d d' : D}
    (h : setPath doc k cast store d = some d') (hs : ∀ d a, proj (store d a) = proj d) :
    proj d' = proj d :=
  setPath_frame proj doc k cast store (Or.inr hs) d d' h

/-- A report built from a document whose `author` is the string `a` has the
author `a`. -/
theorem Report.setPaths_author (doc : Payload) (r r1 : Report) (a : String)
    (hk : doc.get "author" = some (.str a)) (h : Report.setPaths doc r = some r1) :
    r1.author = a := by
  simp only [Report.setPaths, Report.paths, List.foldlM_cons, List.foldlM_nil,
    Option.bind_eq_bind, Option.bind_eq_some, Option.pure_def, Option.some.injEq] at h
  obtain ⟨d1, _, d2, _, d3, _, d4, h4, d5, h5, d6, h6, d7, h7, d8, h8, d9, h9, d10, h10,
    d11, h11, d12, h12, rfl⟩ := h
  have e4 : d4.author = a := by
    simp only [setPath, hk, refPath, Option.map_some', Option.some.injEq] at h4
    rw [← h4]
  have e5 := setPath_keeps (fun d : Report => d.author) h5 (fun _ _ => rfl)
  have e6 := setPath_keeps (fun d : Report => d.author) h6 (fun _ _ => rfl)
  have e7 := setPath_keeps (fun d : Report => d.author) h7 (fun _ _ => rfl)
  have e8 := setPath_keeps (fun d : Report => d.author) h8 (fun _ _ => rfl)
  have e9 := setPath_keeps (fun d : Report => d.author) h9 (fun _ _ => rfl)
  have e10 := setPath_keeps (fun d : Report => d.author) h10 (fun _ _ => rfl)
  have e11 := setPath_keeps (fun d : Report => d.author) h11 (fun _ _ => rfl)
  have e12 := setPath_keeps (fun d : Report => d.author) h12 (fun _ _ => rfl)
  simp only at e5 e6 e7 e8 e9 e10 e11 e12
  rw [e12, e11, e10, e9, e8, e7, e6, e5, e4]

/-- The `save` middleware of a report does not touch the author. -/
theorem Report.preSave_author (now : Int) (b : Bool) (r : Report) :
    (Report.preSave now b r).author = r.author := by
  unfold Report.preSave
  split <;> rfl

/-- C12: whenever `createReport` answers 201, the report it returns and
appends to the collection has the caller as its author, whatever the body
says under `author`. -/
theorem createReport_author (now : Int) (newId : String) (s : Store) (user : Identity)
    (body : Payload)
    (hok : (ReportController.createReport now newId s user body).1.status = 201) :
    ∃ r : Report,
      ReportController.createReport now newId s user body =
        ({ status := 201, success := true, message := "Report created successfully",
           data := .report r }, { s with reports := s.reports ++ [r] }) ∧
      r.author = user.id := by
  unfold ReportController.createReport at hok ⊢
  by_cases hvalid : createReportValidation body = true
  · simp only [hvalid, not_true_eq_false, if_false] at hok ⊢
    split at hok
    · rename_i response hearly
      exfalso
      have hne : response.status ≠ 201 := by
        split at hearly
        · simp at hearly
        · split at hearly
          · simp at hearly
          · split at hearly
            · simp only [Option.some.injEq] at hearly
              rw [← hearly]
              simp [failure]
            · split at hearly
              · simp only [Option.some.injEq] at hearly
                rw [← hearly]
                simp [failure]
              · simp at hearly
        · split at hearly
          · simp only [Option.some.injEq] at hearly
            rw [← hearly]
            simp [failure]
          · simp at hearly
      exact hne hok
    · simp only [Report.create] at hok ⊢
      cases hr : Report.fromPayload now newId (body.set "author" (.str user.id)) with
      | none =>
        rw [hr] at hok
        simp [failure] at hok
      | some r =>
        refine ⟨r, rfl, ?_⟩
        unfold Report.fromPayload at hr
        split at hr
        · simp at hr
        · simp only [Option.map_eq_some'] at hr
          obtain ⟨r1, h1, rfl⟩ := hr
          rw [Report.preSave_author]
          exact Report.setPaths_author _ _ r1 user.id (Payload.get_set body "author" _) h1
  · simp only [hvalid, not_false_eq_true, if_true] at hok
    simp [failure] at hok

/-- C12 on the sample store: `alice` sends `author: 'u2'`; the created report
has the author `u1`. -/
theorem createReport_author_witness :
    (ReportController.createReport 2000 "r9" sampleStore alice
      [("title", .str "Day 1"), ("content", .str "Done"), ("author", .str "u2")]).1.status
      = 201 ∧
    ∃ r : Report,
      ReportController.createReport 2000 "r9" sampleStore alice
          [("title", .str "Day 1"), ("content", .str "Done"), ("author", .str "u2")] =
        ({ status := 201, success := true, message := "Report created successfully",
           data := .report r }, { sampleStore with reports := sampleStore.reports ++ [r] }) ∧
      r.author = "u1" :=
  ⟨by decide,
    createReport_author 2000 "r9" sampleStore alice
      [("title", .str "Day 1"), ("content", .str "Done"), ("author", .str "u2")] (by decide)⟩

/-! ## Absent records (C13) -/

/-- C13: when no report has the id `rid` and no task has the id `tid`, the
four report handlers and the four task handlers answer 404 with their
not-found message and leave the store as it is, whoever the caller is.  The
bodies of the two update handlers are ones that pass their validation chain.
No handler reaches its authorization test, so none answers 403. -/
theorem absent_record_is_404 (now : Int) (s : Store) (user : Identity) (rid tid : String)
    (rbody tbody cbody : Payload) (hr : Report.findById s rid = none)
    (ht : Task.findById s tid = none) (hvr : updateReportValidation rbody = true)
    (hvt : updateTaskValidation tbody = true) :
    ReportController.getReport s user rid = failure 404 "Report not found" ∧
    ReportController.updateReport now s user rid rbody = (failure 404 "Report not found", s) ∧
    ReportController.deleteReport s user rid = (failure 404 "Report not found", s) ∧
    ReportController.addComment now s user rid cbody = (failure 404 "Report not found", s) ∧
    TaskController.getTask s user tid = failure 404 "Task not found" ∧
    TaskController.updateTask now s user tid tbody = (failure 404 "Task not found", s) ∧
    TaskController.deleteTask now s tid = (failure 404 "Task not found", s) ∧
    TaskController.addComment now s user tid cbody = (failure 404 "Task not found", s) ∧
    (failure 404 "Report not found").status ≠ 403 ∧
    (failure 404 "Task not found").status ≠ 403 := by
  refine ⟨?_, ?_, ?_, ?_, ?_, ?_, ?_, ?_, by decide, by decide⟩
  · simp [ReportController.getReport, hr]
  · simp [ReportController.updateReport, hvr, hr]
  · simp [ReportController.deleteReport, hr]
  · simp [ReportController.addComment, hr]
  · simp [TaskController.getTask, ht]
  · simp [TaskController.updateTask, hvt, ht]
  · simp [TaskController.deleteTask, ht]
  · simp [TaskController.addComment, ht]

/-- C13 on the sample store for the non-admin `bob` and ids that are not
stored. -/
theorem absent_record_is_404_witness :
    Report.findById sampleStore "r0" = none ∧
    Task.findById sampleStore missingTaskId = none ∧
    ReportController.deleteReport sampleStore bob "r0"
      = (failure 404 "Report not found", sampleStore) ∧
    TaskController.updateTask 2000 sampleStore bob missingTaskId [("status", .str "completed")]
      = (failure 404 "Task not found", sampleStore) :=
  ⟨by decide, by decide,
    (absent_record_is_404 2000 sampleStore bob "r0" missingTaskId [] [("status", .str "completed")]
      [] (by decide) (by decide) (by decide) (by decide)).2.2.1,
    (absent_record_is_404 2000 sampleStore bob "r0" missingTaskId [] [("status", .str "completed")]
      [] (by decide) (by decide) (by decide) (by decide)).2.2.2.2.2.1⟩

/-! ## Soft deletion (C16, C17) -/

/-- What `deleteTask` leaves in the store for an existing task. -/
theorem deleteTask_eq (now : Int) (s : Store) (id : String) (task : Task)
    (hfind : Task.findById s id = some task) :
    TaskController.deleteTask now s id =
      ({ status := 200, success := true, message := "Task deleted successfully" },
        if task.isActive then s.putTask (deletedTask now task) else s) := by
  cases hact : task.isActive with
  | true =>
    have hne : ({ task with isActive := false } : Task) ≠ task := by
      intro h
      have := congrArg (fun t : Task => t.isActive) h
      simp [hact] at this
    simp [TaskController.deleteTask, hfind, Task.save, hne, Task.preSave, deletedTask, hact]
  | false =>
    have heq : ({ task with isActive := false } : Task) = task := by
      cases task
      simp_all
    simp [TaskController.deleteTask, hfind, Task.save, heq]

/-- After `deleteTask` the lookup of the id finds the soft-deleted document. -/
theorem deleteTask_findById (now : Int) (s : Store) (id : String) (task : Task)
    (hfind : Task.findById s id = some task) :
    Task.findById (TaskController.deleteTask now s id).2 id = some (deletedTask now task) := by
  rw [deleteTask_eq now s id task hfind]
  cases hact : task.isActive with
  | true =>
    simp only [if_true]
    apply Task.findById_putTask s id task _ hfind
    simp [deletedTask, hact, Task.findById_id s id task hfind]
  | false =>
    simp [deletedTask, hact, hfind]

/-- C16 as stated fails: `deleteTask` at instant 2000 on the sample task,
whose `updatedAt` is 1000, leaves it with `updatedAt` 2000, so `isActive` is
not the only field of the task that changes. -/
theorem deleteTask_changes_updatedAt :
    alicesTask.updatedAt = 1000 ∧
    (Task.findById (TaskController.deleteTask 2000 sampleStore alicesTask.id).2
      alicesTask.id).map (fun t => (t.isActive, t.updatedAt)) = some (false, 2000) := by
  decide

/-- C16 as amended: `deleteTask` on an existing task answers 200; the stored
task then has `isActive` false, `updatedAt` equal to the instant of the call
when the task was active, and every other field as before; the reports and
the lookup of every other task id are as before; on an inactive task the
store is not written; and a second `deleteTask` answers 200 and leaves the
store as the first one left it. -/
theorem deleteTask_frame (now now2 : Int) (s : Store) (id : String) (task : Task)
    (hfind : Task.findById s id = some task) :
    (TaskController.deleteTask now s id).1
      = { status := 200, success := true, message := "Task deleted successfully" } ∧
    Task.findById (TaskController.deleteTask now s id).2 id = some (deletedTask now task) ∧
    (deletedTask now task).isActive = false ∧
    (task.isActive = true →
      deletedTask now task = { task with isActive := false, updatedAt := now }) ∧
    (task.isActive = false →
      deletedTask now task = task ∧ (TaskController.deleteTask now s id).2 = s) ∧
    (TaskController.deleteTask now s id).2.reports = s.reports ∧
    (∀ other : String, other ≠ id →
      Task.findById (TaskController.deleteTask now s id).2 other = Task.findById s other) ∧
    TaskController.deleteTask now2 (TaskController.deleteTask now s id).2 id =
      ({ status := 200, success := true, message := "Task deleted successfully" },
        (TaskController.deleteTask now s id).2) := by
  have hid : (deletedTask now task).id = id := by
    unfold deletedTask
    split <;> exact Task.findById_id s id task hfind
  have hoff : (deletedTask now task).isActive = false := by
    unfold deletedTask
    split
    · rfl
    · simpa using ‹¬ task.isActive = true›
  refine ⟨?_, deleteTask_findById now s id task hfind, hoff, ?_, ?_, ?_, ?_, ?_⟩
  · rw [deleteTask_eq now s id task hfind]
  · intro h
    simp [deletedTask, h]
  · intro h
    rw [deleteTask_eq now s id task hfind]
    simp [deletedTask, h]
  · rw [deleteTask_eq now s id task hfind]
    split <;> rfl
  · intro other hne
    rw [deleteTask_eq now s id task hfind]
    split
    · exact Task.findById_putTask_ne s id other _ hid hne
    · rfl
  · rw [deleteTask_eq now2 _ id (deletedTask now task) (deleteTask_findById now s id task hfind)]
    simp [hoff]

/-- C16 as amended, on the sample store: the first `deleteTask` writes
`isActive` false and the stamp, the second one changes nothing. -/
theorem deleteTask_frame_witness :
    Task.findById (TaskController.deleteTask 2000 sampleStore alicesTask.id).2 alicesTask.id
      = some { alicesTask with isActive := false, updatedAt := 2000 } ∧
    TaskController.deleteTask 3000 (TaskController.deleteTask 2000 sampleStore alicesTask.id).2
        alicesTask.id =
      ({ status := 200, success := true, message := "Task deleted successfully" },
        (TaskController.deleteTask 2000 sampleStore alicesTask.id).2) :=
  ⟨((deleteTask_frame 2000 3000 sampleStore alicesTask.id alicesTask (by decide)).2.1).trans
      (congrArg some
        ((deleteTask_frame 2000 3000 sampleStore alicesTask.id alicesTask (by decide)).2.2.2.1
          (by decide))),
    (deleteTask_frame 2000 3000 sampleStore alicesTask.id alicesTask (by decide)).2.2.2.2.2.2.2⟩

/-- The filter of `getMyTasks` and the `$match` filter of `getTaskStats` have
`isActive: true`. -/
theorem own_and_stats_filters_isActive (user : Identity) :
    (getMyTasksFilter user).isActive = some true ∧
    (getTaskStatsFilter user).isActive = some true := by
  refine ⟨rfl, ?_⟩
  unfold getTaskStatsFilter
  by_cases h : user.role = "admin" <;> simp [h]

/-- A task filter with `isActive: true` matches no inactive task. -/
theorem TaskFilter.not_matches_inactive (I : Interp) (f : TaskFilter) (t : Task)
    (hf : f.isActive = some true) (ht : t.isActive = false) : f.matches I t = false := by
  cases hm : f.matches I t with
  | false => rfl
  | true =>
    have := TaskFilter.matches_isActive I f t true hf hm
    rw [ht] at this
    exact absurd this (by decide)

/-- C17: after `deleteTask` on an existing task, the stored document has
`isActive` false and is matched by none of the filters that `getTasks`,
`searchTasks`, `getMyTasks` and `getTaskStats` (its `$match` and its overdue
count) build, for every caller and every parameter; `getTask` by an admin
still returns that document. -/
theorem soft_delete_invariant (I : Interp) (now : Int) (s : Store) (id : String) (task : Task)
    (hfind : Task.findById s id = some task) :
    Task.findById (TaskController.deleteTask now s id).2 id = some (deletedTask now task) ∧
    (deletedTask now task).isActive = false ∧
    (∀ (user : Identity) (q : TaskQuery),
      (getTasksFilter user q).matches I (deletedTask now task) = false) ∧
    (∀ (user : Identity) (q : String) (status : Option String),
      (searchTasksFilter user q status).matches I (deletedTask now task) = false) ∧
    (∀ user : Identity, (getMyTasksFilter user).matches I (deletedTask now task) = false) ∧
    (∀ user : Identity, (getTaskStatsFilter user).matches I (deletedTask now task) = false) ∧
    (∀ (at_ : Int) (user : Identity),
      (getTaskStatsOverdueFilter at_ user).matches I (deletedTask now task) = false) ∧
    (∀ admin : Identity, admin.role = "admin" →
      TaskController.getTask (TaskController.deleteTask now s id).2 admin id =
        { status := 200, success := true, message := "", data := .task (deletedTask now task) })
    := by
  have hoff : (deletedTask now task).isActive = false := by
    unfold deletedTask
    split
    · rfl
    · simpa using ‹¬ task.isActive = true›
  have hafter := deleteTask_findById now s id task hfind
  refine ⟨hafter, hoff, ?_, ?_, ?_, ?_, ?_, ?_⟩
  · intro user q
    exact TaskFilter.not_matches_inactive I _ _ (by rw [getTasksFilter_eq]) hoff
  · intro user q status
    simp [SearchFilter.matches, searchTasksFilter, hoff]
  · intro user
    exact TaskFilter.not_matches_inactive I _ _ (own_and_stats_filters_isActive user).1 hoff
  · intro user
    exact TaskFilter.not_matches_inactive I _ _ (own_and_stats_filters_isActive user).2 hoff
  · intro at_ user
    simp [OverdueFilter.matches, getTaskStatsOverdueFilter,
      TaskFilter.not_matches_inactive I _ _ (own_and_stats_filters_isActive user).2 hoff]
  · intro admin hadmin
    simp [TaskController.getTask, hafter, hadmin]

/-- C17 on the sample store: after `deleteTask` the task of `alice` is matched
neither by her own list filter nor by her search, and the admin `root` reads
it with `isActive` false. -/
theorem soft_delete_invariant_witness :
    (getTasksFilter alice {}).matches sampleInterp alicesTask = true ∧
    (getTasksFilter alice {}).matches sampleInterp (deletedTask 2000 alicesTask) = false ∧
    (searchTasksFilter alice "weekly" none).matches sampleInterp (deletedTask 2000 alicesTask)
      = false ∧
    TaskController.getTask (TaskController.deleteTask 2000 sampleStore alicesTask.id).2 root
        alicesTask.id =
      { status := 200, success := true, message := "",
        data := .task (deletedTask 2000 alicesTask) } ∧
    (deletedTask 2000 alicesTask).isActive = false :=
  ⟨by decide,
    (soft_delete_invariant sampleInterp 2000 sampleStore alicesTask.id alicesTask
      (by decide)).2.2.1 alice {},
    (soft_delete_invariant sampleInterp 2000 sampleStore alicesTask.id alicesTask
      (by decide)).2.2.2.1 alice "weekly" none,
    (soft_delete_invariant sampleInterp 2000 sampleStore alicesTask.id alicesTask
      (by decide)).2.2.2.2.2.2.2 root (by decide),
    (soft_delete_invariant sampleInterp 2000 sampleStore alicesTask.id alicesTask
      (by decide)).2.1⟩

/-! ## Sort key and paging of a list request (C14, C15) -/

/-- The list handlers have no branch that answers 400: the answer is 200 when
the store answers and 500 when it throws. -/
theorem list_handlers_status
    (execR : FindCall ReportFilter → Option (List Report × Nat))
    (execT : FindCall TaskFilter → Option (List Task × Nat)) (user : Identity)
    (qr : ReportQuery) (qt : TaskQuery) :
    ((ReportController.getReports execR user qr).status = 200 ∨
      (ReportController.getReports execR user qr).status = 500) ∧
    ((TaskController.getTasks execT user qt).status = 200 ∨
      (TaskController.getTasks execT user qt).status = 500) := by
  constructor
  · unfold ReportController.getReports
    split <;> simp [listFailure]
  · unfold TaskController.getTasks
    split <;> simp [listFailure]

/-- The key of the sort object is the `sortBy` parameter as sent, whatever it
is, and the default only when the parameter is absent. -/
theorem list_sort_key (user : Identity) (qr : ReportQuery) (qt : TaskQuery) :
    (ReportController.getReportsFind user qr).sort.1 = qr.sortBy.getD "date" ∧
    (TaskController.getTasksFind user qt).sort.1 = qt.sortBy.getD "createdAt" :=
  ⟨rfl, rfl⟩

/-- C14, on the code: `sortBy=isPublic` is outside the allow-list of reports
and `sortBy=assignedTo` outside that of tasks, and `queryValidation` records an
error for each; yet `getReports` and `getTasks` hand the value to the store as
the sort key and never answer 400, and answer 200 when the store answers. -/
theorem list_unknown_sortBy_is_used :
    ReportRoutes.queryValidation { sortBy := some "isPublic" } = false ∧
    (ReportController.getReportsFind alice { sortBy := some "isPublic" }).sort
      = ("isPublic", -1) ∧
    (∀ exec : FindCall ReportFilter → Option (List Report × Nat),
      (ReportController.getReports exec alice { sortBy := some "isPublic" }).status ≠ 400) ∧
    (ReportController.getReports (fun _ => some ([bobsPublicReport], 1)) alice
      { sortBy := some "isPublic" }).status = 200 ∧
    TaskRoutes.queryValidation { sortBy := some "assignedTo" } = false ∧
    (TaskController.getTasksFind alice { sortBy := some "assignedTo" }).sort
      = ("assignedTo", -1) ∧
    (∀ exec : FindCall TaskFilter → Option (List Task × Nat),
      (TaskController.getTasks exec alice { sortBy := some "assignedTo" }).status ≠ 400) ∧
    (TaskController.getTasks (fun _ => some ([alicesTask], 1)) alice
      { sortBy := some "assignedTo" }).status = 200 := by
  refine ⟨by decide, by decide, ?_, by decide, by decide, by decide, ?_, by decide⟩
  · intro exec
    unfold ReportController.getReports
    split <;> simp [listFailure]
  · intro exec
    unfold TaskController.getTasks
    split <;> simp [listFailure]

/-- C15, on the code: for `page=0&limit=1000` the chain `queryValidation`
records errors, yet `getTasks` hands `skip = -1000` and `limit = 1000` to the
store and never answers 400; for `limit=abc` `getReports` hands `NaN` as
`skip` and as `limit`. -/
theorem list_paging_is_unchecked :
    TaskRoutes.queryValidation { page := some "0", limit := some "1000" } = false ∧
    (TaskController.getTasksFind alice { page := some "0", limit := some "1000" }).skip
      = some (-1000) ∧
    (TaskController.getTasksFind alice { page := some "0", limit := some "1000" }).limit
      = some 1000 ∧
    (∀ exec : FindCall TaskFilter → Option (List Task × Nat),
      (TaskController.getTasks exec alice { page := some "0", limit := some "1000" }).status
        ≠ 400) ∧
    (TaskController.getTasks (fun _ => some ([alicesTask], 1)) alice
      { page := some "0", limit := some "1000" }).status = 200 ∧
    ReportRoutes.queryValidation { limit := some "abc" } = false ∧
    (ReportController.getReportsFind alice { limit := some "abc" }).skip = none ∧
    (ReportController.getReportsFind alice { limit := some "abc" }).limit = none ∧
    (∀ exec : FindCall ReportFilter → Option (List Report × Nat),
      (ReportController.getReports exec alice { limit := some "abc" }).status ≠ 400) := by
  refine ⟨by decide, by decide, by decide, ?_, by decide, by decide, by decide, by decide, ?_⟩
  · intro exec
    unfold TaskController.getTasks
    split <;> simp [listFailure]
  · intro exec
    unfold ReportController.getReports
    split <;> simp [listFailure]

/-- A decimal digit is no white space. -/
theorem isDigit_not_isWhitespace (c : Char) (h : c.isDigit = true) :
    c.isWhitespace = false := by
  cases hw : c.isWhitespace with
  | false => rfl
  | true =>
    simp only [Char.isWhitespace, Bool.or_eq_true, decide_eq_true_eq] at hw
    rcases hw with ((rfl | rfl) | rfl) | rfl <;> exact absurd h (by decide)

/-- On a non-empty run of decimal digits `parseInt` reads the whole run. -/
theorem parseMagnitude_digits (ds : List Char) (hne : ds ≠ [])
    (hall : ds.all Char.isDigit = true) : parseMagnitude ds = some (digitsVal ds) := by
  have htw : ds.takeWhile Char.isDigit = ds :=
    List.takeWhile_eq_self_iff.mpr (by simpa using hall)
  have hx : Char.isDigit 'x' = false := by decide
  have hX : Char.isDigit 'X' = false := by decide
  unfold parseMagnitude
  split
  · simp [hx] at hall
  · simp [hX] at hall
  · simp [htw, hne]

/-- A string that `isInt` accepts is read by `parseInt` as the same integer. -/
theorem parseInt_of_intText (s : String) (n : Int) (h : intText s = some n) :
    parseInt s = some n := by
  have hm : Char.isWhitespace '-' = false := by decide
  have hp : Char.isWhitespace '+' = false := by decide
  unfold intText at h
  unfold parseInt
  split at h
  · rename_i ds hs
    split at h
    · rename_i hd
      simp only [Option.some.injEq] at h
      simp [hs, List.dropWhile, hm, parseMagnitude_digits ds hd.1 hd.2, h]
    · simp at h
  · rename_i ds hs
    split at h
    · rename_i hd
      simp only [Option.some.injEq] at h
      simp [hs, List.dropWhile, hp, parseMagnitude_digits ds hd.1 hd.2, h]
    · simp at h
  · rename_i ds hminus hplus
    split at h
    · rename_i hd
      simp only [Option.some.injEq] at h
      obtain ⟨hne, hall⟩ := hd
      cases hds : s.data with
      | nil => exact absurd hds hne
      | cons c cs =>
        have hc : c.isDigit = true := by
          rw [hds] at hall
          simp only [List.all_cons, Bool.and_eq_true] at hall
          exact hall.1
        have hcm : c ≠ '-' := by
          rintro rfl
          exact absurd hc (by decide)
        have hcp : c ≠ '+' := by
          rintro rfl
          exact absurd hc (by decide)
        have hmag := parseMagnitude_digits s.data hne hall
        rw [hds] at hmag
        simp only [List.dropWhile, isDigit_not_isWhitespace c hc]
        split
        · rename_i cs' heq
          simp only [List.cons.injEq] at heq
          exact absurd heq.1 hcm
        · rename_i cs' heq
          simp only [List.cons.injEq] at heq
          exact absurd heq.1 hcp
        · rw [hmag]
          simp [← h, hds]
    · simp at h

/-- A `page` and a `limit` that pass the chain are read by the handler as
integers with `page ≥ 1` and `1 ≤ limit ≤ 100`, the defaults being 1 and 10. -/
theorem paging_of_valid (page limit : Option String)
    (hp : optionalQuery page (isInt 1 none) = true)
    (hl : optionalQuery limit (isInt 1 (some 100)) = true) :
    ∃ p l : Int, parseInt (page.getD "1") = some p ∧ parseInt (limit.getD "10") = some l ∧
      skipOf (page.getD "1") (limit.getD "10") = some ((p - 1) * l) ∧
      1 ≤ p ∧ 1 ≤ l ∧ l ≤ 100 ∧ 0 ≤ (p - 1) * l := by
  have hP : ∃ p : Int, parseInt (page.getD "1") = some p ∧ 1 ≤ p := by
    cases page with
    | none => exact ⟨1, by decide, le_refl 1⟩
    | some s =>
      simp only [optionalQuery, isInt] at hp
      cases hi : intText s with
      | none => simp [hi] at hp
      | some n =>
        simp only [hi, optAll, Bool.and_true, decide_eq_true_eq] at hp
        exact ⟨n, parseInt_of_intText s n hi, hp⟩
  have hL : ∃ l : Int, parseInt (limit.getD "10") = some l ∧ 1 ≤ l ∧ l ≤ 100 := by
    cases limit with
    | none => exact ⟨10, by decide, by decide, by decide⟩
    | some s =>
      simp only [optionalQuery, isInt] at hl
      cases hi : intText s with
      | none => simp [hi] at hl
      | some n =>
        simp only [hi, optAll, Bool.and_eq_true, decide_eq_true_eq] at hl
        exact ⟨n, parseInt_of_intText s n hi, hl.1, hl.2⟩
  obtain ⟨p, hp1, hp2⟩ := hP
  obtain ⟨l, hl1, hl2, hl3⟩ := hL
  refine ⟨p, l, hp1, hl1, ?_, hp2, hl2, hl3, ?_⟩
  · simp [skipOf, hp1, hl1]
  · exact mul_nonneg (by omega) (by omega)

/-- For a query that passes `queryValidation` the paging handed to the store
is in range; the defect shown in C14 and C15 concerns only queries for which
the chain records an error. -/
theorem valid_query_paging (user : Identity) (qr : ReportQuery) (qt : TaskQuery)
    (hr : ReportRoutes.queryValidation qr = true) (ht : TaskRoutes.queryValidation qt = true) :
    (∃ p l : Int, (ReportController.getReportsFind user qr).skip = some ((p - 1) * l) ∧
      (ReportController.getReportsFind user qr).limit = some l ∧
      1 ≤ p ∧ 1 ≤ l ∧ l ≤ 100 ∧ 0 ≤ (p - 1) * l) ∧
    (∃ p l : Int, (TaskController.getTasksFind user qt).skip = some ((p - 1) * l) ∧
      (TaskController.getTasksFind user qt).limit = some l ∧
      1 ≤ p ∧ 1 ≤ l ∧ l ≤ 100 ∧ 0 ≤ (p - 1) * l) := by
  simp only [ReportRoutes.queryValidation, Bool.and_eq_true] at hr
  simp only [TaskRoutes.queryValidation, Bool.and_eq_true] at ht
  obtain ⟨p, l, _, h2, h3, h4, h5, h6, h7⟩ := paging_of_valid qr.page qr.limit hr.1.1.1.1.1 hr.1.1.1.1.2
  obtain ⟨p', l', _, h2', h3', h4', h5', h6', h7'⟩ :=
    paging_of_valid qt.page qt.limit ht.1.1.1.1.1.1 ht.1.1.1.1.1.2
  exact ⟨⟨p, l, h3, h2, h4, h5, h6, h7⟩, ⟨p', l', h3', h2', h4', h5', h6', h7'⟩⟩

/-! ## Completion and approval stamps (C18, C19) -/

/-- A write of a document without the key `completedDate` keeps that field. -/
theorem Task.applyUpdate_completedDate (now : Int) (doc : Payload) (t t' : Task)
    (hk : doc.get "completedDate" = none) (h : Task.applyUpdate now doc t = some t') :
    t'.completedDate = t.completedDate := by
  simp only [Task.applyUpdate, Option.map_eq_some'] at h
  obtain ⟨t1, h1, rfl⟩ := h
  refine foldlM_frame (fun d : Task => d.completedDate) _ ?_ t t1 h1
  intro f hf
  simp only [Task.paths, List.mem_cons, List.mem_singleton, List.not_mem_nil, or_false] at hf
  rcases hf with rfl | rfl | rfl | rfl | rfl | rfl | rfl | rfl | rfl | rfl | rfl | rfl | rfl
    | rfl | rfl
  all_goals first
    | exact setPath_frame _ _ _ _ _ (Or.inr fun _ _ => rfl)
    | exact setPath_frame _ _ _ _ _ (Or.inl hk)

/-- The update handlers never stamp: when the written document has no key
`approvedAt` (or `completedDate`), the stored value of that field after
`findByIdAndUpdate` is the value before, whatever happens to `status`. -/
theorem update_keeps_stamps (now : Int) (doc : Payload) (r r' : Report) (t t' : Task)
    (hr : doc.get "approvedAt" = none) (ht : doc.get "completedDate" = none)
    (hur : Report.applyUpdate now doc r = some r') (hut : Task.applyUpdate now doc t = some t') :
    r'.approvedAt = r.approvedAt ∧ t'.completedDate = t.completedDate :=
  ⟨Report.applyUpdate_approvedAt now doc r r' hr hur,
    Task.applyUpdate_completedDate now doc t t' ht hut⟩

/-- C18, on the code.  The non-admin assignee `alice` sends a `completedDate`
to `updateTask` for a pending task that was never completed: the answer is 200
and the date is stored while the status is still `pending`.  She sends another
`completedDate` for a completed task: the stored date 3000 is replaced by 9999
while the status stays `completed`.  She creates a report with an `approvedAt`:
the report is stored as a `draft` with that date. -/
theorem stamps_are_not_set_once :
    alicesTask.status = "pending" ∧ alicesTask.completedDate = none ∧
    updateTaskValidation [("completedDate", .date "2030-01-01" 7777)] = true ∧
    TaskController.updateTask 2000 archiveStore alice alicesTask.id
        [("completedDate", .date "2030-01-01" 7777)] =
      ({ status := 200, success := true, message := "Task updated successfully",
         data := .task { alicesTask with completedDate := some 7777, updatedAt := 2000 } },
        archiveStore.putTask { alicesTask with completedDate := some 7777, updatedAt := 2000 }) ∧
    doneTask.status = "completed" ∧ doneTask.completedDate = some 3000 ∧
    TaskController.updateTask 5000 archiveStore alice doneTask.id
        [("status", .str "completed"), ("completedDate", .date "2030-01-02" 9999)] =
      ({ status := 200, success := true, message := "Task updated successfully",
         data := .task { doneTask with completedDate := some 9999, updatedAt := 5000 } },
        archiveStore.putTask { doneTask with completedDate := some 9999, updatedAt := 5000 }) ∧
    (ReportController.createReport 2000 "r9" archiveStore alice
        [("title", .str "Day 1"), ("content", .str "Done"),
         ("approvedAt", .date "2030-01-01" 7777)]).1 =
      { status := 201, success := true, message := "Report created successfully",
        data := .report
          { Report.blank 2000 "r9" with
            title := "Day 1", content := "Done", author := "u1", approvedAt := some 7777 } } ∧
    (Report.blank 2000 "r9").status = "draft" := by
  decide

/-- C19, on the code.  The admin `root` sends `{status: 'approved'}` to
`updateReport` for a report whose `approvedAt` is unset: the answer is 200,
the stored and returned report has the status `approved`, and its
`approvedAt` is still unset.  `alice` sends `{status: 'completed'}` to
`updateTask` for her pending task: the stored and returned task has the
status `completed` and no `completedDate`. -/
theorem update_does_not_stamp :
    bobsReport.approvedAt = none ∧
    ReportController.updateReport 2000 sampleStore root "r1" [("status", .str "approved")] =
      ({ status := 200, success := true, message := "Report updated successfully",
         data := .report { bobsReport with status := "approved", updatedAt := 2000 } },
        sampleStore.putReport { bobsReport with status := "approved", updatedAt := 2000 }) ∧
    ({ bobsReport with status := "approved", updatedAt := 2000 } : Report).approvedAt = none ∧
    alicesTask.completedDate = none ∧
    TaskController.updateTask 2000 sampleStore alice alicesTask.id
        [("status", .str "completed")] =
      ({ status := 200, success := true, message := "Task updated successfully",
         data := .task { alicesTask with status := "completed", updatedAt := 2000 } },
        sampleStore.putTask { alicesTask with status := "completed", updatedAt := 2000 }) ∧
    ({ alicesTask with status := "completed", updatedAt := 2000 } : Task).completedDate
      = none := by
  decide

/-! ## Comments under update (C20) -/

/-- C20, on the code.  `alice` sends `{comments: []}` to `updateTask` for her
task that carries one comment: the answer is 200 and the stored task has no
comment.  `bob` sends to `updateReport` a `comments` array in which the text of
the admin's comment is changed: the stored report carries the changed comment.
In both cases the comments before are no prefix of the comments after. -/
theorem update_replaces_comments :
    doneTask.comments = [{ user := "a1", content := "Well done", createdAt := 3500 }] ∧
    updateTaskValidation [("comments", .comments [])] = true ∧
    TaskController.updateTask 5000 archiveStore alice doneTask.id [("comments", .comments [])] =
      ({ status := 200, success := true, message := "Task updated successfully",
         data := .task { doneTask with comments := [], updatedAt := 5000 } },
        archiveStore.putTask { doneTask with comments := [], updatedAt := 5000 }) ∧
    List.isPrefixOf doneTask.comments
      ({ doneTask with comments := [], updatedAt := 5000 } : Task).comments = false ∧
    annotatedReport.comments
      = [{ user := "a1", content := "Please add the numbers", createdAt := 1500 }] ∧
    updateReportValidation
      [("comments", .comments [{ user := "a1", content := "Approved", createdAt := 1500 }])]
      = true ∧
    (ReportController.updateReport 5000 archiveStore bob "r3"
      [("comments", .comments [{ user := "a1", content := "Approved", createdAt := 1500 }])]).1 =
      { status := 200, success := true, message := "Report updated successfully",
        data := .report
          { annotatedReport with
            comments := [{ user := "a1", content := "Approved", createdAt := 1500 }]
            updatedAt := 5000 } } ∧
    List.isPrefixOf annotatedReport.comments
      [{ user := "a1", content := "Approved", createdAt := 1500 }] = false := by
  decide

/-! ## Appending a comment (C21) -/

/-- After writing back a report with the looked-up id, the lookup finds it. -/
theorem Report.findById_putReport (s : Store) (id : String) (r r' : Report)
    (h : Report.findById s id = some r) (hid : r'.id = id) :
    Report.findById (s.putReport r') id = some r' := by
  obtain ⟨reports, tasks⟩ := s
  simp only [Report.findById, Store.putReport] at h ⊢
  induction reports with
  | nil => simp at h
  | cons x xs ih =>
    by_cases hx : x.id = id
    · simp [List.find?, hx, hid]
    · have hx' : (x.id == id) = false := by simpa using hx
      have hx2 : (x.id == r'.id) = false := by simpa [hid] using hx
      simp only [List.find?, hx'] at h
      simp only [List.map, hx2, Bool.false_eq_true, if_false, List.find?, hx']
      exact ih h

/-- The document found under a report id has that id. -/
theorem Report.findById_sameId (s : Store) (id : String) (r : Report)
    (h : Report.findById s id = some r) : r.id = id := by
  have := List.find?_some h
  simpa using this

/-- A non-empty string of at most 500 characters is accepted as the content
of a comment, as it is. -/
theorem commentContentPath_str (body : Payload) (text : String)
    (hb : body.get "content" = some (.str text)) (hne : text ≠ "")
    (hlen : text.length ≤ 500) : commentContentPath (body.get "content") = some text := by
  simp [hb, commentContentPath, castString, hne, hlen]

/-- C21 as stated fails: the task `addComment` of `alice` at instant 2000 on
her sample task, whose `updatedAt` is 1000, leaves the task with `updatedAt`
2000, so the comments are not the only field of the record that changes. -/
theorem addComment_changes_updatedAt :
    alicesTask.updatedAt = 1000 ∧
    (Task.findById
      (TaskController.addComment 2000 sampleStore alice alicesTask.id
        [("content", .str "Half done")]).2
      alicesTask.id).map (fun t => (t.comments, t.updatedAt))
      = some ([{ user := "u1", content := "Half done", createdAt := 2000 }], 2000) := by
  decide

/-- C21 as amended: for an existing task and an existing report, a caller who
passes the guard and a body whose `content` is a non-empty string of at most
500 characters, `addComment` answers 200 with the comment
`{user: caller.id, content, createdAt: now}`; the stored record is the record
before with that one comment appended after the existing comments and with
`updatedAt` stamped, every other field as before. -/
theorem addComment_appends (now : Int) (s : Store) (user : Identity) (tid rid : String)
    (task : Task) (report : Report) (body : Payload) (text : String)
    (ht : Task.findById s tid = some task) (hr : Report.findById s rid = some report)
    (hat : user.role = "admin" ∨ task.assignedTo = user.id)
    (har : user.role = "admin" ∨ report.author = user.id ∨ report.isPublic = true)
    (hb : body.get "content" = some (.str text)) (hne : text ≠ "")
    (hlen : text.length ≤ 500) :
    (TaskController.addComment now s user tid body).1 =
      { status := 200, success := true, message := "Comment added successfully",
        data := .comment { user := user.id, content := text, createdAt := now } } ∧
    Task.findById (TaskController.addComment now s user tid body).2 tid =
      some { task with
        comments := task.comments ++ [{ user := user.id, content := text, createdAt := now }],
        updatedAt := now } ∧
    (ReportController.addComment now s user rid body).1 =
      { status := 200, success := true, message := "Comment added successfully",
        data := .comment { user := user.id, content := text, createdAt := now } } ∧
    Report.findById (ReportController.addComment now s user rid body).2 rid =
      some { report with
        comments := report.comments ++ [{ user := user.id, content := text, createdAt := now }],
        updatedAt := now } := by
  have hc := commentContentPath_str body text hb hne hlen
  have hgt : ¬ (user.role ≠ "admin" ∧ task.assignedTo ≠ user.id) := by
    intro h
    rcases hat with h1 | h1
    · exact h.1 h1
    · exact h.2 h1
  have hgr : ¬ (user.role ≠ "admin" ∧ report.author ≠ user.id ∧ ¬ report.isPublic = true) := by
    intro h
    rcases har with h1 | h1 | h1
    · exact h.1 h1
    · exact h.2.1 h1
    · exact h.2.2 h1
  have et : TaskController.addComment now s user tid body =
      ({ status := 200, success := true, message := "Comment added successfully",
         data := .comment { user := user.id, content := text, createdAt := now } },
        s.putTask { task with
          comments := task.comments ++ [{ user := user.id, content := text, createdAt := now }],
          updatedAt := now }) := by
    simp only [TaskController.addComment, ht]
    rw [if_neg hgt]
    simp [hc, taskSave_push]
  have er : ReportController.addComment now s user rid body =
      ({ status := 200, success := true, message := "Comment added successfully",
         data := .comment { user := user.id, content := text, createdAt := now } },
        s.putReport { report with
          comments := report.comments ++ [{ user := user.id, content := text, createdAt := now }],
          updatedAt := now }) := by
    simp only [ReportController.addComment, hr]
    rw [if_neg hgr]
    simp [hc, reportSave_push]
  rw [et, er]
  exact ⟨rfl, Task.findById_putTask s tid task _ ht (Task.findById_id s tid task ht), rfl,
    Report.findById_putReport s rid report _ hr (Report.findById_sameId s rid report hr)⟩

/-- C21 as amended, on the archive store: the admin `root` comments on the
completed task and on the annotated report, each of which already carries a
comment. -/
theorem addComment_appends_witness :
    Task.findById
        (TaskController.addComment 6000 archiveStore root doneTask.id
          [("content", .str "Thanks")]).2 doneTask.id =
      some { doneTask with
        comments :=
          [{ user := "a1", content := "Well done", createdAt := 3500 },
           { user := "a1", content := "Thanks", createdAt := 6000 }],
        updatedAt := 6000 } ∧
    Report.findById
        (ReportController.addComment 6000 archiveStore root "r3"
          [("content", .str "Thanks")]).2 "r3" =
      some { annotatedReport with
        comments :=
          [{ user := "a1", content := "Please add the numbers", createdAt := 1500 },
           { user := "a1", content := "Thanks", createdAt := 6000 }],
        updatedAt := 6000 } ∧
    (TaskController.addComment 6000 archiveStore root doneTask.id
      [("content", .str "Thanks")]).1 =
      { status := 200, success := true, message := "Comment added successfully",
        data := .comment { user := "a1", content := "Thanks", createdAt := 6000 } } :=
  ⟨(addComment_appends 6000 archiveStore root doneTask.id "r3" doneTask annotatedReport
      [("content", .str "Thanks")] "Thanks" (by decide) (by decide) (by decide)
      (by decide) (by decide) (by decide) (by decide)).2.1,
    (addComment_appends 6000 archiveStore root doneTask.id "r3" doneTask annotatedReport
      [("content", .str "Thanks")] "Thanks" (by decide) (by decide) (by decide)
      (by decide) (by decide) (by decide) (by decide)).2.2.2,
    (addComment_appends 6000 archiveStore root doneTask.id "r3" doneTask annotatedReport
      [("content", .str "Thanks")] "Thanks" (by decide) (by decide) (by decide)
      (by decide) (by decide) (by decide) (by decide)).1⟩

/-! ## Reports of one user (C22) -/

/-- The filter of `getUserReports` in closed form. -/
theorem getUserReportsFind_filter (userId : String) (q : ReportQuery) :
    (ReportController.getUserReportsFind userId q).filter =
      { author := some userId, status := present q.status, category := present q.category } := by
  unfold ReportController.getUserReportsFind
  cases present q.status <;> cases present q.category <;> rfl

/-- C22: `getUserReports` answers 403 exactly when the caller is no admin and
`userId` is not the caller's id.  Otherwise it calls the store, and answers
200 with the documents the store returns; the filter of the call is
`author: userId` with `status` and `category` when supplied (non-empty), and
nothing else, so that every report it matches is authored by `userId`. -/
theorem getUserReports_guard (I : Interp)
    (exec : FindCall ReportFilter → Option (List Report × Nat)) (user : Identity)
    (userId : String) (q : ReportQuery) :
    ((ReportController.getUserReports exec user userId q).status = 403 ↔
      (user.role ≠ "admin" ∧ userId ≠ user.id)) ∧
    (ReportController.getUserReportsFind userId q).filter =
      { author := some userId, status := present q.status, category := present q.category } ∧
    (∀ r : Report,
      (ReportController.getUserReportsFind userId q).filter.matches I r = true →
        r.author = userId) ∧
    (¬ (user.role ≠ "admin" ∧ userId ≠ user.id) →
      ∀ (reports : List Report) (total : Nat),
        exec (ReportController.getUserReportsFind userId q) = some (reports, total) →
          (ReportController.getUserReports exec user userId q).status = 200 ∧
          (ReportController.getUserReports exec user userId q).data = reports) := by
  refine ⟨?_, getUserReportsFind_filter userId q, ?_, ?_⟩
  · by_cases h : user.role ≠ "admin" ∧ userId ≠ user.id
    · simp [ReportController.getUserReports, h]
    · simp only [ReportController.getUserReports, h, if_false, iff_false]
      cases exec (ReportController.getUserReportsFind userId q) <;> simp [listFailure]
  · intro r hm
    exact ReportFilter.matches_author I _ r userId
      (by rw [getUserReportsFind_filter]) hm
  · intro h reports total he
    simp [ReportController.getUserReports, h, he]

/-- C22 at concrete callers: `alice` is refused the reports of `u2` and
reads her own, and the filter for `u2` with `status=draft` is
`{author: 'u2', status: 'draft'}`. -/
theorem getUserReports_guard_witness :
    (ReportController.getUserReports (fun _ => some ([bobsReport], 1)) alice "u2" {}).status
      = 403 ∧
    (ReportController.getUserReports (fun _ => some ([], 0)) alice "u1" {}).status = 200 ∧
    (ReportController.getUserReportsFind "u2" { status := some "draft" }).filter =
      { author := some "u2", status := some "draft" } :=
  ⟨(getUserReports_guard sampleInterp (fun _ => some ([bobsReport], 1)) alice "u2" {}).1.mpr
      (by decide),
    ((getUserReports_guard sampleInterp (fun _ => some ([], 0)) alice "u1" {}).2.2.2
      (by decide) [] 0 rfl).1,
    (getUserReports_guard sampleInterp (fun _ => some ([], 0)) alice "u2"
      { status := some "draft" }).2.1⟩

/-! ## Task search (C23, C24) -/

/-- The test `!q || q.trim().length < 2` in terms of the trimmed length. -/
theorem searchTasksCall_eq_none (user : Identity) (sq : SearchQuery) :
    TaskController.searchTasksCall user sq = none ↔
      (sq.q = none ∨ ∃ q : String, sq.q = some q ∧ jsLength (jsTrim q) < 2) := by
  unfold TaskController.searchTasksCall
  cases hq : sq.q with
  | none => simp
  | some q =>
    by_cases h : q = "" ∨ jsLength (jsTrim q) < 2
    · have h2 : jsLength (jsTrim q) < 2 := by
        rcases h with h | h
        · rw [h]
          decide
        · exact h
      simp [h, h2]
    · have h2 : ¬ jsLength (jsTrim q) < 2 := fun h' => h (Or.inr h')
      simp only [h, if_false]
      constructor
      · intro h'
        simp at h'
      · rintro (h' | ⟨q', hq', hl⟩)
        · simp at h'
        · simp only [Option.some.injEq] at hq'
          rw [← hq'] at hl
          exact absurd hl h2

/-- C23: `searchTasks` answers 400 exactly when `q` is absent or its trimmed
text has fewer than 2 characters (UTF-16 code units); it then makes no call
on the store, so that the answer does not depend on the store.  For every
other `q` the call is made with the filter for `q`. -/
theorem searchTasks_rejects (exec exec' : SearchCall SearchFilter → Option (List Task))
    (user : Identity) (sq : SearchQuery) :
    ((TaskController.searchTasks exec user sq).status = 400 ↔
      (sq.q = none ∨ ∃ q : String, sq.q = some q ∧ jsLength (jsTrim q) < 2)) ∧
    ((sq.q = none ∨ ∃ q : String, sq.q = some q ∧ jsLength (jsTrim q) < 2) →
      TaskController.searchTasksCall user sq = none ∧
      TaskController.searchTasks exec user sq = TaskController.searchTasks exec' user sq) ∧
    (∀ q : String, sq.q = some q → ¬ jsLength (jsTrim q) < 2 →
      ∃ call : SearchCall SearchFilter,
        TaskController.searchTasksCall user sq = some call ∧
        call.filter = searchTasksFilter user q sq.status) := by
  refine ⟨?_, ?_, ?_⟩
  · rw [← searchTasksCall_eq_none user sq]
    unfold TaskController.searchTasks
    cases hc : TaskController.searchTasksCall user sq with
    | none => simp
    | some call =>
      simp only
      cases exec call <;> simp
  · intro h
    have hn := (searchTasksCall_eq_none user sq).mpr h
    refine ⟨hn, ?_⟩
    simp [TaskController.searchTasks, hn]
  · intro q hq hl
    have hne : q ≠ "" := by
      rintro rfl
      exact hl (by decide)
    refine ⟨{ filter := searchTasksFilter user q sq.status
              select := ["title", "description", "status", "priority", "dueDate", "category"]
              sort := [("dueDate", 1), ("priority", -1)]
              limit := parseInt (sq.limit.getD "20") }, ?_, rfl⟩
    simp [TaskController.searchTasksCall, hq, hne, hl]

/-- C23 at concrete queries: no `q`, the empty `q` and ` a ` are answered 400,
`ab` is not. -/
theorem searchTasks_rejects_witness :
    (TaskController.searchTasks (fun _ => some []) alice {}).status = 400 ∧
    (TaskController.searchTasks (fun _ => some []) alice { q := some "" }).status = 400 ∧
    (TaskController.searchTasks (fun _ => some []) alice { q := some " a " }).status = 400 ∧
    (TaskController.searchTasks (fun _ => some []) alice { q := some "ab" }).status = 200 ∧
    ∃ call : SearchCall SearchFilter,
      TaskController.searchTasksCall alice { q := some "ab" } = some call ∧
      call.filter = searchTasksFilter alice "ab" none :=
  ⟨(searchTasks_rejects (fun _ => some []) (fun _ => none) alice {}).1.mpr (Or.inl rfl),
    (searchTasks_rejects (fun _ => some []) (fun _ => none) alice { q := some "" }).1.mpr
      (Or.inr ⟨"", rfl, by decide⟩),
    (searchTasks_rejects (fun _ => some []) (fun _ => none) alice { q := some " a " }).1.mpr
      (Or.inr ⟨" a ", rfl, by decide⟩),
    by decide,
    (searchTasks_rejects (fun _ => some []) (fun _ => none) alice { q := some "ab" }).2.2
      "ab" rfl (by decide)⟩

/-- C24 as stated fails: the query `..` has two characters and is accepted;
the filter hands it to `$regex` as a pattern, and as a pattern it matches the
sample task of `alice`, although neither the title nor the description of
that task contains the text `..`. -/
theorem searchTasks_pattern_not_substring :
    (TaskController.searchTasksCall alice { q := some ".." }).map (fun c => c.filter.or)
      = some [.titleRegex "..", .descriptionRegex ".."] ∧
    containsCI ".." alicesTask.title = false ∧
    containsCI ".." alicesTask.description = false ∧
    (searchTasksFilter alice ".." none).matches dotInterp alicesTask = true := by
  decide

/-- C24 as amended: when `searchTasks` makes its call, for any caller, the
filter has `isActive: true`, `assignedTo: caller.id`, `status.$in` the pieces
of the `status` parameter between commas (`pending` and `in_progress` when the
parameter is absent) and `$or` the case-insensitive `$regex` test with `q` as
the pattern on `title` and on `description`; the sort is `dueDate` ascending,
then `priority` descending; the limit is the parsed `limit` parameter, 20 when
it is absent.  A task is matched exactly when it satisfies the four
conditions. -/
theorem searchTasks_call (I : Interp) (user : Identity) (sq : SearchQuery)
    (call : SearchCall SearchFilter)
    (h : TaskController.searchTasksCall user sq = some call) :
    ∃ q : String, sq.q = some q ∧
      call.filter.isActive = true ∧ call.filter.assignedTo = user.id ∧
      call.filter.statusIn = splitComma (sq.status.getD "pending,in_progress") ∧
      (sq.status = none → call.filter.statusIn = ["pending", "in_progress"]) ∧
      call.filter.or = [.titleRegex q, .descriptionRegex q] ∧
      call.sort = [("dueDate", 1), ("priority", -1)] ∧
      call.limit = parseInt (sq.limit.getD "20") ∧
      (sq.limit = none → call.limit = some 20) ∧
      (∀ t : Task, call.filter.matches I t = true ↔
        (t.isActive = true ∧ t.assignedTo = user.id ∧ t.status ∈ call.filter.statusIn ∧
          (I.regexI q t.title = true ∨ I.regexI q t.description = true))) := by
  unfold TaskController.searchTasksCall at h
  cases hq : sq.q with
  | none => simp [hq] at h
  | some q =>
    simp only [hq] at h
    split at h
    · simp at h
    · simp only [Option.some.injEq] at h
      subst h
      refine ⟨q, rfl, rfl, rfl, rfl, ?_, rfl, rfl, rfl, ?_, ?_⟩
      · intro hs
        simp only [searchTasksFilter, hs, Option.getD_none]
        decide
      · intro hl
        simp only [hl, Option.getD_none]
        decide
      · intro t
        simp [SearchFilter.matches, searchTasksFilter, TaskClause.holds, and_assoc]

/-- C24 as amended, for the admin `root` and the query `q=RELEASE`: the call is scoped to
the tasks assigned to `root` themselves, so the completed task of `alice` is
not matched although its title contains the text, while for `alice` with
`status=completed` it is. -/
theorem searchTasks_call_witness :
    (∃ q : String, ({ q := some "RELEASE" } : SearchQuery).q = some q ∧
      (searchTasksFilter root "RELEASE" none).assignedTo = root.id ∧
      (searchTasksFilter root "RELEASE" none).statusIn = ["pending", "in_progress"]) ∧
    (searchTasksFilter root "RELEASE" none).matches sampleInterp doneTask = false ∧
    (searchTasksFilter alice "RELEASE" (some "completed")).matches sampleInterp doneTask
      = true :=
  ⟨(fun ⟨q, hq, _, h2, _, h4, _⟩ => ⟨q, hq, h2, h4 rfl⟩)
    (searchTasks_call sampleInterp root { q := some "RELEASE" }
      { filter := searchTasksFilter root "RELEASE" none
        select := ["title", "description", "status", "priority", "dueDate", "category"]
        sort := [("dueDate", 1), ("priority", -1)]
        limit := some 20 } (by decide)),
    by decide, by decide⟩

/-! ## Task statistics (C25) -/

/-- The tasks that the `$match` filter of `getTaskStats` matches are the
visible scope of the caller. -/
theorem statsFilter_scope (I : Interp) (s : Store) (user : Identity) :
    s.tasks.filter ((getTaskStatsFilter user).matches I) = statsScope s user := by
  unfold statsScope
  congr 1
  funext t
  by_cases h : user.role = "admin"
  · simp [getTaskStatsFilter, TaskFilter.matches, optAll, h]
  · simp [getTaskStatsFilter, TaskFilter.matches, optAll, h]

/-- The entries of a `$group` count: a key is listed with `n` exactly when `n`
documents have it and `n` is positive; no key is listed twice; the counts add
up to the number of documents. -/
theorem groupCount_spec (key : Task → String) (ts : List Task) :
    (∀ (k : String) (n : Nat), (k, n) ∈ groupCount key ts ↔
      (0 < n ∧ n = (ts.filter (fun t => key t == k)).length)) ∧
    ((groupCount key ts).map Prod.fst).Nodup ∧
    ((groupCount key ts).map Prod.snd).sum = ts.length := by
  have hcount : ∀ k : String,
      (ts.map key).count k = (ts.filter (fun t => key t == k)).length := by
    intro k
    rw [List.count, List.countP_map, List.countP_eq_length_filter]
    rfl
  refine ⟨?_, ?_, ?_⟩
  · intro k n
    simp only [groupCount, List.mem_map, List.mem_dedup, Prod.mk.injEq]
    constructor
    · rintro ⟨k', hk', rfl, rfl⟩
      exact ⟨List.count_pos_iff.mpr (List.mem_map.mpr hk'), hcount k'⟩
    · rintro ⟨hpos, hn⟩
      rw [← hcount k] at hn
      subst hn
      exact ⟨k, List.mem_map.mp (List.count_pos_iff.mp hpos), rfl, rfl⟩
  · simp only [groupCount, List.map_map]
    have : (Prod.fst ∘ fun k => (k, (ts.map key).count k)) = id := rfl
    rw [this, List.map_id]
    exact List.nodup_dedup _
  · simp only [groupCount, List.map_map]
    have : (Prod.snd ∘ fun k => (k, (ts.map key).count k)) = fun k => (ts.map key).count k :=
      rfl
    rw [this, List.sum_map_count_dedup_eq_length, List.length_map]

/-- For an admin the `$match` stage has no `ObjectId` path, so it is read as
`find` reads it; for any other caller it has `assignedTo` with a string and
matches no task. -/
theorem statsMatch_uncast (I : Interp) (user : Identity) (t : Task) :
    (user.role = "admin" →
      (getTaskStatsFilter user).matchesUncast I t = (getTaskStatsFilter user).matches I t) ∧
    (user.role ≠ "admin" → (getTaskStatsFilter user).matchesUncast I t = false) := by
  constructor
  · intro h
    simp [getTaskStatsFilter, TaskFilter.matchesUncast, TaskFilter.matches, optAll, h]
  · intro h
    simp [getTaskStatsFilter, TaskFilter.matchesUncast, optAll, h]

/-- What `getTaskStats` does compute: for every caller `overdueCount` is the
number of tasks of the visible scope whose status is neither `completed` nor
`cancelled` and whose `dueDate` is before `now`; for an admin `statusStats`
and `priorityStats` are the grouped counts of the scope; for any other caller
both are empty, whatever the store holds. -/
theorem getTaskStats_computes (I : Interp) (now : Int) (s : Store) (user : Identity) :
    (TaskController.getTaskStats I now s user).overdueCount =
      ((statsScope s user).filter
        (fun t => !(["completed", "cancelled"].contains t.status) &&
          decide (t.dueDate < now))).length ∧
    (user.role = "admin" →
      (TaskController.getTaskStats I now s user).statusStats =
        groupCount (fun t => t.status) (statsScope s user) ∧
      (TaskController.getTaskStats I now s user).priorityStats =
        groupCount (fun t => t.priority) (statsScope s user)) ∧
    (user.role ≠ "admin" →
      (TaskController.getTaskStats I now s user).statusStats = [] ∧
      (TaskController.getTaskStats I now s user).priorityStats = []) := by
  refine ⟨?_, ?_, ?_⟩
  · simp only [TaskController.getTaskStats]
    rw [← statsFilter_scope I s user, List.filter_filter]
    congr 1
    apply List.filter_congr
    intro t _
    simp only [OverdueFilter.matches, getTaskStatsOverdueFilter]
    cases (getTaskStatsFilter user).matches I t <;> simp
  · intro h
    have hf : (getTaskStatsFilter user).matchesUncast I = (getTaskStatsFilter user).matches I :=
      funext fun t => (statsMatch_uncast I user t).1 h
    simp [TaskController.getTaskStats, hf, statsFilter_scope]
  · intro h
    have hf : s.tasks.filter ((getTaskStatsFilter user).matchesUncast I) = [] := by
      rw [List.filter_eq_nil_iff]
      intro t _
      simp [(statsMatch_uncast I user t).2 h]
    simp [TaskController.getTaskStats, hf, groupCount]

/-- C25, on the code: the sample store holds one active task, pending, of
medium priority and assigned to `alice`, so her visible scope has one task.
`getTaskStats` for `alice` answers empty `statusStats` and `priorityStats`,
because the `$match` stage of the aggregations compares her id, a string,
with the `ObjectId` under `assignedTo`; `overdueCount`, which goes through
`countDocuments`, counts the task.  For the admin `root` both groups count
it. -/
theorem getTaskStats_nonadmin_groups_empty :
    alice.role = "user" ∧
    statsScope sampleStore alice = [alicesTask] ∧
    (TaskController.getTaskStats sampleInterp 6000 sampleStore alice).statusStats = [] ∧
    (TaskController.getTaskStats sampleInterp 6000 sampleStore alice).priorityStats = [] ∧
    (TaskController.getTaskStats sampleInterp 6000 sampleStore alice).overdueCount = 1 ∧
    (TaskController.getTaskStats sampleInterp 6000 sampleStore root).statusStats
      = [("pending", 1)] ∧
    (TaskController.getTaskStats sampleInterp 6000 sampleStore root).priorityStats
      = [("medium", 1)] := by
  decide

/-! ## Derived fields of a task (C26, C30) -/

/-- For a positive divisor `ceilDiv` is the ceiling of the exact quotient. -/
theorem ceilDiv_eq_ceil (a b : Int) (hb : 0 < b) : ceilDiv a b = ⌈(a : ℚ) / (b : ℚ)⌉ := by
  obtain ⟨n, rfl⟩ := Int.eq_ofNat_of_zero_le hb.le
  unfold ceilDiv
  rw [Int.fdiv_eq_ediv _ (Int.ofNat_nonneg n)]
  have h := Rat.floor_intCast_div_natCast (-a) n
  have h2 : ⌈(a : ℚ) / (((n : ℕ) : ℤ) : ℚ)⌉ = -⌊(((-a : ℤ)) : ℚ) / (n : ℚ)⌋ := by
    rw [← Int.ceil_neg]
    congr 1
    push_cast
    ring
  rw [h2, h]

/-- C26: at every instant `now`, `isOverdue` holds exactly when the status is
not `completed` and `dueDate` is before `now`, and `daysUntilDue` is the
ceiling of `(dueDate - now) / 86400000`.  A task that is not completed and was
due one day before `now` is overdue with `daysUntilDue = -1`; a completed task
is never overdue. -/
theorem task_virtuals (now : Int) (t : Task) :
    (Task.isOverdue now t = true ↔ (t.status ≠ "completed" ∧ t.dueDate < now)) ∧
    Task.daysUntilDue now t = ⌈((t.dueDate - now : Int) : ℚ) / 86400000⌉ ∧
    (t.status ≠ "completed" → t.dueDate = now - 86400000 →
      Task.isOverdue now t = true ∧ Task.daysUntilDue now t = -1) ∧
    (t.status = "completed" → Task.isOverdue now t = false) := by
  refine ⟨?_, ?_, ?_, ?_⟩
  · simp [Task.isOverdue]
  · unfold Task.daysUntilDue
    rw [ceilDiv_eq_ceil _ _ (by norm_num)]
    norm_num
  · intro hs hd
    constructor
    · simp [Task.isOverdue, hs, hd]
    · unfold Task.daysUntilDue ceilDiv
      rw [hd]
      have : -(now - 86400000 - now) = 86400000 := by ring
      rw [this]
      decide
  · intro hs
    simp [Task.isOverdue, hs]

/-- C26 on the sample tasks, one day after the due date of the pending task:
it is overdue with `daysUntilDue = -1`, and the completed task is not overdue
three days after its due date. -/
theorem task_virtuals_witness :
    alicesTask.status = "pending" ∧
    Task.isOverdue (5000 + 86400000) alicesTask = true ∧
    Task.daysUntilDue (5000 + 86400000) alicesTask = -1 ∧
    doneTask.status = "completed" ∧
    Task.isOverdue (4000 + 3 * 86400000) doneTask = false :=
  ⟨by decide,
    ((task_virtuals (5000 + 86400000) alicesTask).2.2.1 (by decide) (by decide)).1,
    ((task_virtuals (5000 + 86400000) alicesTask).2.2.1 (by decide) (by decide)).2,
    by decide,
    (task_virtuals (4000 + 3 * 86400000) doneTask).2.2.2 (by decide)⟩

/-- C30: for a task of the statistics scope whose status is not `cancelled`,
the overdue filter of `getTaskStats` matches it exactly when its `isOverdue`
is true at the same instant; a cancelled task that was due before `now` has
`isOverdue` true and is not matched by the overdue filter, whoever the caller
is. -/
theorem overdue_predicates (I : Interp) (now : Int) (user : Identity) (t : Task) :
    ((getTaskStatsFilter user).matches I t = true → t.status ≠ "cancelled" →
      ((getTaskStatsOverdueFilter now user).matches I t = true ↔
        Task.isOverdue now t = true)) ∧
    (t.status = "cancelled" → t.dueDate < now →
      Task.isOverdue now t = true ∧
      (getTaskStatsOverdueFilter now user).matches I t = false) := by
  constructor
  · intro hm hs
    simp [OverdueFilter.matches, getTaskStatsOverdueFilter, hm, Task.isOverdue, hs]
  · intro hs hd
    constructor
    · simp [Task.isOverdue, hs, hd]
    · simp [OverdueFilter.matches, getTaskStatsOverdueFilter, hs]

/-- C30 on a cancelled copy of the sample task after its due date: its
`isOverdue` is true, the overdue filter of `alice` does not match it and the
overdue count of a store holding only that task is 0; the pending sample task
is overdue and matched. -/
theorem overdue_predicates_witness :
    Task.isOverdue 6000 { alicesTask with status := "cancelled" } = true ∧
    (getTaskStatsOverdueFilter 6000 alice).matches sampleInterp
      { alicesTask with status := "cancelled" } = false ∧
    (TaskController.getTaskStats sampleInterp 6000
      { reports := [], tasks := [{ alicesTask with status := "cancelled" }] }
      alice).overdueCount = 0 ∧
    ((getTaskStatsOverdueFilter 6000 alice).matches sampleInterp alicesTask = true ↔
      Task.isOverdue 6000 alicesTask = true) ∧
    Task.isOverdue 6000 alicesTask = true :=
  ⟨((overdue_predicates sampleInterp 6000 alice { alicesTask with status := "cancelled" }).2
      (by decide) (by decide)).1,
    ((overdue_predicates sampleInterp 6000 alice { alicesTask with status := "cancelled" }).2
      (by decide) (by decide)).2,
    by decide,
    (overdue_predicates sampleInterp 6000 alice alicesTask).1 (by decide) (by decide),
    by decide⟩

/-! ## Pagination helper (C27) -/

/-- C27: for integers `page ≥ 1`, `limit ≥ 1` and any `total`, in particular
`total ≥ 0`, passed as numbers, `calculatePagination` returns them as
`currentPage`, `itemsPerPage` and `totalItems`, `totalPages` is the ceiling of `total / limit` and is 0 when
`total` is 0, `hasNextPage` is `page < totalPages`, `hasPrevPage` is
`page > 1`, and `nextPage`, `prevPage` are `page + 1`, `page - 1` when the
respective flag holds and `null` otherwise. -/
theorem calculatePagination_spec (page limit total : Int) (hp : 1 ≤ page)
    (hl : 1 ≤ limit) :
    (calculatePagination (.num page) (.num limit) (.num total)).currentPage = page ∧
    (calculatePagination (.num page) (.num limit) (.num total)).itemsPerPage = limit ∧
    (calculatePagination (.num page) (.num limit) (.num total)).totalItems = total ∧
    (calculatePagination (.num page) (.num limit) (.num total)).totalPages
      = ⌈(total : ℚ) / (limit : ℚ)⌉ ∧
    (total = 0 → (calculatePagination (.num page) (.num limit) (.num total)).totalPages = 0) ∧
    ((calculatePagination (.num page) (.num limit) (.num total)).hasNextPage = true ↔
      page < ⌈(total : ℚ) / (limit : ℚ)⌉) ∧
    ((calculatePagination (.num page) (.num limit) (.num total)).hasPrevPage = true ↔
      1 < page) ∧
    (calculatePagination (.num page) (.num limit) (.num total)).nextPage =
      (if page < ⌈(total : ℚ) / (limit : ℚ)⌉ then some (page + 1) else none) ∧
    (calculatePagination (.num page) (.num limit) (.num total)).prevPage =
      (if 1 < page then some (page - 1) else none) := by
  have hp0 : page ≠ 0 := by omega
  have hl0 : limit ≠ 0 := by omega
  have hcur : orDefault (parseIntOf (.num page)) 1 = page := by
    simp [orDefault, parseIntOf, hp0]
  have hper : orDefault (parseIntOf (.num limit)) 10 = limit := by
    simp [orDefault, parseIntOf, hl0]
  have htot : orDefault (parseIntOf (.num total)) 0 = total := by
    by_cases h : total = 0 <;> simp [orDefault, parseIntOf, h]
  have hceil := ceilDiv_eq_ceil total limit (by omega)
  simp only [calculatePagination, hcur, hper, htot, hceil, decide_eq_true_eq, gt_iff_lt]
  refine ⟨trivial, trivial, trivial, trivial, ?_, trivial, trivial, trivial, trivial⟩
  intro h0
  simp [h0]

/-- C27 at `(2, 10, 25)`, and at `(1, 10, 0)` where there is no page. -/
theorem calculatePagination_spec_witness :
    calculatePagination (.num 2) (.num 10) (.num 25) =
      { currentPage := 2, itemsPerPage := 10, totalItems := 25, totalPages := 3,
        hasNextPage := true, hasPrevPage := true, nextPage := some 3, prevPage := some 1 } ∧
    (calculatePagination (.num 2) (.num 10) (.num 25)).currentPage = 2 ∧
    (calculatePagination (.num 1) (.num 10) (.num 0)).totalPages = 0 :=
  ⟨by decide,
    (calculatePagination_spec 2 10 25 (by decide) (by decide)).1,
    (calculatePagination_spec 1 10 0 (by decide) (by decide)).2.2.2.2.1 rfl⟩

/-! ## Input sanitizer (C28) -/

/-- A value that is no string is returned by `sanitizeInput` as it is. -/
theorem sanitizeInput_non_string (v : Val) (hs : ∀ s : String, v ≠ .str s)
    (hd : ∀ (text : String) (ms : Int), v ≠ .date text ms) : sanitizeInput v = v := by
  cases v with
  | str s => exact absurd rfl (hs s)
  | date text ms => exact absurd rfl (hd text ms)
  | null => rfl
  | bool b => rfl
  | num n => rfl
  | strs xs => rfl
  | comments cs => rfl

/-- C28, on the code: `sanitizeInput` deletes the matches of `/javascript:/gi`
in one pass and removes event handlers afterwards, so the deletion can bring
the pieces of a new `javascript:` together.  For
`javajavascript:script:alert(1)` and for `javaonx=script:alert(1)` it returns
`javascript:alert(1)`, and for the mixed-case input `JAVAjavascript:SCRIPT:x`
it returns `JAVASCRIPT:x`. -/
theorem sanitizeInput_leaves_protocol :
    sanitizeInput (.str "javajavascript:script:alert(1)") = .str "javascript:alert(1)" ∧
    containsCI "javascript:" "javascript:alert(1)" = true ∧
    sanitizeInput (.str "javaonx=script:alert(1)") = .str "javascript:alert(1)" ∧
    sanitizeInput (.str "JAVAjavascript:SCRIPT:x") = .str "JAVASCRIPT:x" ∧
    containsCI "javascript:" "JAVASCRIPT:x" = true ∧
    sanitizeInput (.str "<a href=\"JavaScript:x\">") = .str "a href=\"x\"" := by
  decide

/-! ## No field stripping on creation (C29) -/

/-- A key other than `k` is read from `{ ...body, k: v }` as from `body`. -/
theorem Payload.get_set_ne (body : Payload) (k j : String) (v : Val) (h : j ≠ k) :
    (body.set k v).get j = body.get j := by
  have hb : (j == k) = false := by simpa using h
  have hd := Payload.get_delete body k j
  simp only [h, if_false] at hd
  simp only [Payload.set, Payload.get, List.lookup, hb]
  exact hd

/-- A report built from a document carries the cast values of the keys
`status`, `approvedBy` and `approvedAt` that the document has. -/
theorem Report.setPaths_supplied (doc : Payload) (r r1 : Report)
    (h : Report.setPaths doc r = some r1) :
    (∀ (v : Val) (st : String), doc.get "status" = some v →
      enumPath reportStatuses v = some st → r1.status = st) ∧
    (∀ (v : Val) (a : Option String), doc.get "approvedBy" = some v →
      optRefPath v = some a → r1.approvedBy = a) ∧
    (∀ (v : Val) (d : Option Int), doc.get "approvedAt" = some v →
      optDatePath v = some d → r1.approvedAt = d) := by
  simp only [Report.setPaths, Report.paths, List.foldlM_cons, List.foldlM_nil,
    Option.bind_eq_bind, Option.bind_eq_some, Option.pure_def, Option.some.injEq] at h
  obtain ⟨d1, _, d2, _, d3, _, d4, _, d5, _, d6, h6, d7, h7, d8, h8, d9, h9, d10, h10,
    d11, h11, d12, h12, rfl⟩ := h
  refine ⟨?_, ?_, ?_⟩
  · intro v st hk hv
    have e6 : d6.status = st := by
      simp only [setPath, hk, hv, Option.map_some', Option.some.injEq] at h6
      rw [← h6]
    have e7 := setPath_keeps (fun d : Report => d.status) h7 (fun _ _ => rfl)
    have e8 := setPath_keeps (fun d : Report => d.status) h8 (fun _ _ => rfl)
    have e9 := setPath_keeps (fun d : Report => d.status) h9 (fun _ _ => rfl)
    have e10 := setPath_keeps (fun d : Report => d.status) h10 (fun _ _ => rfl)
    have e11 := setPath_keeps (fun d : Report => d.status) h11 (fun _ _ => rfl)
    have e12 := setPath_keeps (fun d : Report => d.status) h12 (fun _ _ => rfl)
    simp only at e7 e8 e9 e10 e11 e12
    rw [e12, e11, e10, e9, e8, e7, e6]
  · intro v a hk hv
    have e10 : d10.approvedBy = a := by
      simp only [setPath, hk, hv, Option.map_some', Option.some.injEq] at h10
      rw [← h10]
    have e11 := setPath_keeps (fun d : Report => d.approvedBy) h11 (fun _ _ => rfl)
    have e12 := setPath_keeps (fun d : Report => d.approvedBy) h12 (fun _ _ => rfl)
    simp only at e11 e12
    rw [e12, e11, e10]
  · intro v d hk hv
    have e11 : d11.approvedAt = d := by
      simp only [setPath, hk, hv, Option.map_some', Option.some.injEq] at h11
      rw [← h11]
    have e12 := setPath_keeps (fun d : Report => d.approvedAt) h12 (fun _ _ => rfl)
    simp only at e12
    rw [e12, e11]

/-- What the `save` middleware of a new report leaves as it is: the status,
`approvedBy`, and an `approvedAt` that is set. -/
theorem Report.preSave_keeps (now : Int) (b : Bool) (r : Report) :
    (Report.preSave now b r).status = r.status ∧
    (Report.preSave now b r).approvedBy = r.approvedBy ∧
    (∀ ms : Int, r.approvedAt = some ms → (Report.preSave now b r).approvedAt = some ms) := by
  unfold Report.preSave
  split
  · rename_i hc
    refine ⟨rfl, rfl, ?_⟩
    intro ms hms
    simp [hms] at hc
  · exact ⟨rfl, rfl, fun _ h => h⟩

/-- Whenever `createReport` answers 201, the report it returns and stores is
the one `Report.create` builds from `{ ...req.body, author: req.user.id }`. -/
theorem createReport_created (now : Int) (newId : String) (s : Store) (user : Identity)
    (body : Payload)
    (hok : (ReportController.createReport now newId s user body).1.status = 201) :
    ∃ r : Report,
      ReportController.createReport now newId s user body =
        ({ status := 201, success := true, message := "Report created successfully",
           data := .report r }, { s with reports := s.reports ++ [r] }) ∧
      Report.fromPayload now newId (body.set "author" (.str user.id)) = some r := by
  unfold ReportController.createReport at hok ⊢
  by_cases hvalid : createReportValidation body = true
  · simp only [hvalid, not_true_eq_false, if_false] at hok ⊢
    split at hok
    · rename_i response hearly
      exfalso
      have hne : response.status ≠ 201 := by
        split at hearly
        · simp at hearly
        · split at hearly
          · simp at hearly
          · split at hearly
            · simp only [Option.some.injEq] at hearly
              rw [← hearly]
              simp [failure]
            · split at hearly
              · simp only [Option.some.injEq] at hearly
                rw [← hearly]
                simp [failure]
              · simp at hearly
        · split at hearly
          · simp only [Option.some.injEq] at hearly
            rw [← hearly]
            simp [failure]
          · simp at hearly
      exact hne hok
    · simp only [Report.create] at hok ⊢
      cases hr : Report.fromPayload now newId (body.set "author" (.str user.id)) with
      | none =>
        rw [hr] at hok
        simp [failure] at hok
      | some r => exact ⟨r, rfl, rfl⟩
  · simp only [hvalid, not_false_eq_true, if_true] at hok
    simp [failure] at hok

/-- C29: whenever `createReport` answers 201, for any caller, the created
report has the status of the body, the `approvedBy` of the body and the
`approvedAt` of the body as supplied, and the caller as author: no key is
stripped. -/
theorem createReport_strips_nothing (now : Int) (newId : String) (s : Store)
    (user : Identity) (body : Payload)
    (hok : (ReportController.createReport now newId s user body).1.status = 201) :
    ∃ r : Report,
      ReportController.createReport now newId s user body =
        ({ status := 201, success := true, message := "Report created successfully",
           data := .report r }, { s with reports := s.reports ++ [r] }) ∧
      r.author = user.id ∧
      (∀ st : String, body.get "status" = some (.str st) → r.status = st) ∧
      (∀ a : String, body.get "approvedBy" = some (.str a) → r.approvedBy = some a) ∧
      (∀ (text : String) (ms : Int), body.get "approvedAt" = some (.date text ms) →
        r.approvedAt = some ms) := by
  obtain ⟨r, hr, hfrom⟩ := createReport_created now newId s user body hok
  refine ⟨r, hr, ?_⟩
  unfold Report.fromPayload at hfrom
  split at hfrom
  · simp at hfrom
  · simp only [Option.map_eq_some'] at hfrom
    obtain ⟨r1, h1, rfl⟩ := hfrom
    have hsup := Report.setPaths_supplied _ _ r1 h1
    have hkeep := Report.preSave_keeps now
      ((body.set "author" (.str user.id)).get "status").isSome r1
    refine ⟨?_, ?_, ?_, ?_⟩
    · rw [Report.preSave_author]
      exact Report.setPaths_author _ _ r1 user.id (Payload.get_set body "author" _) h1
    · intro st hst
      have hget : (body.set "author" (.str user.id)).get "status" = some (.str st) := by
        rw [Payload.get_set_ne body "author" "status" _ (by decide), hst]
      have hcast : enumPath reportStatuses (.str st) = some r1.status := by
        cases he : enumPath reportStatuses (.str st) with
        | none =>
          exfalso
          simp only [Report.setPaths, Report.paths, List.foldlM_cons, List.foldlM_nil,
            Option.bind_eq_bind, Option.bind_eq_some, Option.pure_def,
            Option.some.injEq] at h1
          obtain ⟨d1, _, d2, _, d3, _, d4, _, d5, _, d6, h6, _⟩ := h1
          simp [setPath, hget, he] at h6
        | some st' => rw [hsup.1 _ st' hget he]
      rw [hkeep.1]
      simp only [enumPath, castString] at hcast
      split at hcast
      · simp only [Option.some.injEq] at hcast
        exact hcast.symm
      · simp at hcast
    · intro a ha
      have hget : (body.set "author" (.str user.id)).get "approvedBy" = some (.str a) := by
        rw [Payload.get_set_ne body "author" "approvedBy" _ (by decide), ha]
      rw [hkeep.2.1]
      exact hsup.2.1 _ (some a) hget rfl
    · intro text ms ht
      have hget :
          (body.set "author" (.str user.id)).get "approvedAt" = some (.date text ms) := by
        rw [Payload.get_set_ne body "author" "approvedAt" _ (by decide), ht]
      exact hkeep.2.2 ms (hsup.2.2 _ (some ms) hget rfl)

/-- C29 on the sample store: the non-admin `alice` creates a report with
`status: 'approved'` and an `approvedBy`; it is stored with that status and
approver (and stamped by the `save` middleware), while `updateReport` would
delete the same two keys from her body. -/
theorem createReport_strips_nothing_witness :
    alice.role ≠ "admin" ∧
    createReportValidation
      [("title", .str "Day 1"), ("content", .str "Done"), ("status", .str "approved"),
       ("approvedBy", .str "u1")] = true ∧
    (∃ r : Report,
      ReportController.createReport 2000 "r9" sampleStore alice
          [("title", .str "Day 1"), ("content", .str "Done"), ("status", .str "approved"),
           ("approvedBy", .str "u1")] =
        ({ status := 201, success := true, message := "Report created successfully",
           data := .report r }, { sampleStore with reports := sampleStore.reports ++ [r] }) ∧
      r.status = "approved" ∧ r.approvedBy = some "u1") ∧
    ReportController.updateData alice
      [("title", .str "Day 1"), ("status", .str "approved"), ("approvedBy", .str "u1")]
      = [("title", .str "Day 1")] :=
  ⟨by decide, by decide,
    (fun ⟨r, hr, _, hs, ha, _⟩ => ⟨r, hr, hs "approved" rfl, ha "u1" rfl⟩)
      (createReport_strips_nothing 2000 "r9" sampleStore alice
        [("title", .str "Day 1"), ("content", .str "Done"), ("status", .str "approved"),
         ("approvedBy", .str "u1")] (by decide)),
    by decide⟩

end DailyReport
